import Mathlib

/-!
Verification of the kataras/pg table-model and SQL-synthesis engine.

The Go source (package `desc` and package `pg`) is shallowly embedded:
pure Go functions become Lean functions over `String`/`List`/`Bool`,
Go `nil` pointers become `Option`, Go `error` returns become `Except String`,
and a Go runtime panic (nil-pointer dereference) is modelled as `Option.none`.
String manipulation mirrors Go's `strings` package via structural-recursive
helpers on `List Char` so that every definition evaluates by kernel reduction.
-/

namespace PG

/-! ## String helpers mirroring Go's `strings`/`strconv` packages -/

/-- The single-quote character, mirroring `singleQuoteLiteral` in insert_query.go. -/
def singleQuoteLiteral : Char := Char.ofNat 39

/-- A one-character string holding a single quote. -/
def sq : String := String.singleton singleQuoteLiteral

def isSpaceChar (c : Char) : Bool :=
  c = ' ' || c = '\t' || c = '\n' || c = '\r'

/-- `\w` of Go's regexp: ASCII letters, digits and underscore. -/
def isWordChar (c : Char) : Bool :=
  (('a' ≤ c && c ≤ 'z') || ('A' ≤ c && c ≤ 'Z') || ('0' ≤ c && c ≤ '9') || c = '_')

/-- Split a character list at every occurrence of the separator character,
mirroring Go's `strings.Split` with a one-character separator. -/
def splitChar (sep : Char) : List Char → List (List Char)
  | [] => [[]]
  | h :: t =>
    if h = sep then [] :: splitChar sep t
    else
      match splitChar sep t with
      | [] => [[h]]
      | g :: gs => (h :: g) :: gs

/-- Go `strings.Split(s, sep)` for a one-character separator. -/
def goSplit (s : String) (sep : Char) : List String :=
  (splitChar sep s.toList).map String.mk

/-- Go `strings.SplitN(s, "=", 2)`: the part before the first `=`, and the rest. -/
def splitOnceChar (sep : Char) : List Char → List Char × Option (List Char)
  | [] => ([], none)
  | h :: t =>
    if h = sep then ([], some t)
    else
      match splitOnceChar sep t with
      | (pre, rest) => (h :: pre, rest)

/-- `strings.SplitN(opt, "=", 2)` as (key, optional value). -/
def goSplitN2 (s : String) (sep : Char) : String × Option String :=
  match splitOnceChar sep s.toList with
  | (pre, none) => (String.mk pre, none)
  | (pre, some rest) => (String.mk pre, some (String.mk rest))

def listStartsWith : List Char → List Char → Bool
  | [], _ => true
  | _ :: _, [] => false
  | n :: ns, h :: hs => n = h && listStartsWith ns hs

/-- Does the needle occur as a contiguous sublist of the haystack? -/
def listContainsSub (needle : List Char) : List Char → Bool
  | [] => listStartsWith needle []
  | h :: t => listStartsWith needle (h :: t) || listContainsSub needle t

/-- Go `strings.Contains`. -/
def goContains (s pat : String) : Bool :=
  listContainsSub pat.toList s.toList

/-- Go `strings.ContainsRune` / `strings.IndexByte(s, c) != -1`. -/
def goContainsChar (s : String) (c : Char) : Bool :=
  s.toList.contains c

/-- Go `strings.HasPrefix`. -/
def goHasPre (s pat : String) : Bool :=
  listStartsWith pat.toList s.toList

/-- Go `strings.HasSuffix`. -/
def goHasSuf (s pat : String) : Bool :=
  listStartsWith pat.toList.reverse s.toList.reverse

/-- Go `strings.TrimPrefix`. -/
def goTrimPre (s pat : String) : String :=
  if goHasPre s pat then String.mk (s.toList.drop pat.toList.length) else s

/-- Go `strings.TrimSuffix`. -/
def goTrimSuf (s pat : String) : String :=
  if goHasSuf s pat then String.mk (s.toList.take (s.toList.length - pat.toList.length)) else s

/-- Go `strings.ToLower` (ASCII-relevant part). -/
def goToLower (s : String) : String :=
  String.mk (s.toList.map Char.toLower)

/-- Go `strings.ToUpper` (ASCII-relevant part). -/
def goToUpper (s : String) : String :=
  String.mk (s.toList.map Char.toUpper)

/-- Go `strings.TrimSpace`. -/
def goTrimSpace (s : String) : String :=
  String.mk (((s.toList.dropWhile isSpaceChar).reverse.dropWhile isSpaceChar).reverse)

/-- Go `strings.EqualFold` (ASCII case folding, which is all the engine needs). -/
def goEqualFold (a b : String) : Bool :=
  goToLower a = goToLower b

/-- Go `strings.Join(elems, sep)`. -/
def goJoin (elems : List String) (sep : String) : String :=
  match elems with
  | [] => ""
  | h :: t => t.foldl (fun acc e => acc ++ sep ++ e) h

/-- Go `strconv.Quote` restricted to plain identifier content (no escapes needed). -/
def goQuote (s : String) : String :=
  "\"" ++ s ++ "\""

/-- Go `strconv.ParseBool`. -/
def goParseBool (s : String) : Option Bool :=
  if s = "1" || s = "t" || s = "T" || s = "TRUE" || s = "true" || s = "True" then some true
  else if s = "0" || s = "f" || s = "F" || s = "FALSE" || s = "false" || s = "False" then some false
  else none

/-- Replace the first `%s` in a format string by the argument,
mirroring the only `fmt.Sprintf` shape used by `writeTagProp`. -/
def sprintf1 : List Char → String → String
  | [], _ => ""
  | '%' :: 's' :: rest, arg => arg ++ String.mk rest
  | h :: t, arg => String.singleton h ++ sprintf1 t arg

/-- Split on a multi-character separator (fuel-based; fuel = input length suffices).
Mirrors Go `strings.Split` for separators such as `", "`. -/
def splitSubAux (sep : List Char) : Nat → List Char → List Char → List (List Char)
  | 0, cur, rest => [cur.reverse ++ rest]
  | _ + 1, cur, [] => [cur.reverse]
  | fuel + 1, cur, h :: t =>
    if listStartsWith sep (h :: t) then
      cur.reverse :: splitSubAux sep fuel [] ((h :: t).drop sep.length)
    else
      splitSubAux sep fuel (h :: cur) t

/-- Go `strings.Split(s, sep)` for a non-empty multi-character separator. -/
def goSplitSub (s sep : String) : List String :=
  (splitSubAux sep.toList s.toList.length [] s.toList).map String.mk

/-! ## Data types (desc/data_type.go) -/

/-- `DataType` of data_type.go: the sql data type for a column. -/
inductive DataType where
  | InvalidDataType
  | BigInt | BigIntArray | BigSerial | Bit | BitVarying | Boolean | Box | Bytea
  | Character | CharacterArray | CharacterVarying | CharacterVaryingArray
  | Cidr | Circle | Date | DoublePrecision | Inet | Integer | IntegerArray
  | IntegerDoubleArray | Array | Interval | JSON | JSONB | Line | Lseg
  | MACAddr | MACAddr8 | Money | Numeric | Path | PgLSN | Point | Polygon
  | Real | SmallInt | SmallSerial | Serial | Text | TextArray | TextDoubleArray
  | Time | TimeTZ | Timestamp | TimestampTZ | TsQuery | TsVector | TxIDSnapshot
  | UUID | UUIDArray | XML
  | Int4Range | Int4MultiRange | Int8Range | Int8MultiRange | NumRange
  | NumMultiRange | TsRange | TsMultirange | TsTzRange | TsTzMultiRange
  | DateRange | DateMultiRange | CIText | HStore
  deriving DecidableEq, Repr

open DataType in
/-- The `dataTypeText` map of data_type.go as an association list
(in the order the source writes it; only lookups are performed, so the
Go map's iteration order is irrelevant). -/
def dataTypeTextList : List (DataType × List String) :=
  [ (BigInt, ["bigint", "int8"]),
    (BigIntArray, ["bigint[]", "int8[]"]),
    (BigSerial, ["bigserial", "serial8"]),
    (Bit, ["bit"]),
    (BitVarying, ["varbit", "bit varying"]),
    (Boolean, ["boolean", "bool"]),
    (Box, ["box"]),
    (Bytea, ["bytea"]),
    (Character, ["character", "char"]),
    (CharacterArray, ["character[]", "char[]"]),
    (CharacterVarying, ["varchar", "character varying"]),
    (CharacterVaryingArray, ["varchar[]", "character varying[]"]),
    (Cidr, ["cidr"]),
    (Circle, ["circle"]),
    (Date, ["date"]),
    (DoublePrecision, ["float8", "double precision"]),
    (Inet, ["inet"]),
    (Integer, ["int", "int4", "integer"]),
    (IntegerArray, ["int[]", "int4[]", "integer[]"]),
    (IntegerDoubleArray, ["int[][]", "int4[][]", "integer[][]"]),
    (DataType.Array, ["array"]),
    (Interval, ["interval"]),
    (JSON, ["json"]),
    (JSONB, ["jsonb"]),
    (Line, ["line"]),
    (Lseg, ["lseg"]),
    (MACAddr, ["macaddr"]),
    (MACAddr8, ["macaddr8"]),
    (Money, ["money"]),
    (Numeric, ["numeric", "decimal"]),
    (Path, ["path"]),
    (PgLSN, ["pg_lsn"]),
    (Point, ["point"]),
    (Polygon, ["polygon"]),
    (Real, ["real", "float4"]),
    (SmallInt, ["smallint", "int2"]),
    (SmallSerial, ["smallserial", "serial2"]),
    (Serial, ["serial4"]),
    (Text, ["text"]),
    (TextArray, ["text[]"]),
    (TextDoubleArray, ["text[][]"]),
    (Time, ["time", "time without time zone", "time(6) without time zone"]),
    (TimeTZ, ["timetz", "time with time zone", "time(6) with time zone"]),
    (Timestamp, ["timestamp", "timestamp without time zone", "timestamp(6) without time zone"]),
    (TimestampTZ, ["timestamptz", "timestamp with time zone", "timestamp(6) with time zone"]),
    (TsQuery, ["tsquery"]),
    (TsVector, ["tsvector"]),
    (TxIDSnapshot, ["txid_snapshot"]),
    (UUID, ["uuid"]),
    (UUIDArray, ["uuid[]"]),
    (XML, ["xml"]),
    (Int4Range, ["int4range"]),
    (Int4MultiRange, ["int4multirange"]),
    (Int8Range, ["int8range"]),
    (Int8MultiRange, ["int8multirange"]),
    (NumRange, ["numrange"]),
    (NumMultiRange, ["nummultirange"]),
    (TsRange, ["tsrange"]),
    (TsMultirange, ["tsmultirange"]),
    (TsTzRange, ["tstzrange"]),
    (TsTzMultiRange, ["tstzmultirange"]),
    (DateRange, ["daterange"]),
    (DateMultiRange, ["datemultirange"]),
    (CIText, ["citext"]),
    (HStore, ["hstore"]) ]

/-- `dataTypeText[t]` lookup. -/
def dataTypeAliases (t : DataType) : List String :=
  match dataTypeTextList.find? (fun p => p.1 = t) with
  | some p => p.2
  | none => []

/-- `DataType.String()`: the first name of the data type
(`InvalidDataType` has no entry and yields the formatted fallback). -/
def DataType.str (t : DataType) : String :=
  match dataTypeAliases t with
  | name :: _ => name
  | [] => "DataType(unexpected)"

/-- `DataType.IsTime()`. -/
def DataType.IsTime (t : DataType) : Bool :=
  match t with
  | .Time | .TimeTZ | .Timestamp | .TimestampTZ => true
  | _ => false

/-- `ParseDataType` of data_type.go: lower-cases the input, strips a trailing
parenthesized type argument (only when the `)` is the final character), and
looks the result up among all registered aliases. -/
def ParseDataType (s : String) : DataType × String :=
  let s := goToLower s
  let (s, typeArgument) :=
    match s.toList.reverse with
    | ')' :: _ =>
      -- the last character is ')': extract the argument after the first '('.
      match splitOnceChar '(' s.toList with
      | (pre, some rest) => (String.mk pre, String.mk (rest.take (rest.length - 1)))
      | (_, none) => (s, "")
    | _ => (s, "")
  match dataTypeTextList.find? (fun p => p.2.contains s) with
  | some p => (p.1, typeArgument)
  | none => (.InvalidDataType, "")

/-! ## Index types (unique_index.go / part_026) -/

/-- `IndexType` of the source. -/
inductive IndexType where
  | InvalidIndex | Btree | Hash | Gist | Spgist | Gin | Brin
  deriving DecidableEq, Repr

/-- `indexTypeText`. -/
def indexTypeTextList : List (IndexType × String) :=
  [ (.Btree, "btree"), (.Hash, "hash"), (.Gist, "gist"),
    (.Spgist, "spgist"), (.Gin, "gin"), (.Brin, "brin") ]

/-- `IndexType.String()`. -/
def IndexType.str (t : IndexType) : String :=
  match indexTypeTextList.find? (fun p => p.1 = t) with
  | some p => p.2
  | none => "IndexType(unexpected)"

/-- `parseIndexType`. -/
def parseIndexType (s : String) : IndexType :=
  let s := goToLower s
  match indexTypeTextList.find? (fun p => p.2 = s) with
  | some p => p.1
  | none => .InvalidIndex

/-! ## Table kinds and the Table/Column model (desc/table.go, part_022) -/

/-- `TableType` of table.go. -/
inductive TableType where
  | Base | View | MaterializedView | Presenter
  deriving DecidableEq, Repr

/-- `TableType.IsReadOnly()`. -/
def TableType.IsReadOnly (t : TableType) : Bool :=
  t = .View || t = .MaterializedView || t = .Presenter

/-- `Column` of part_022 (desc/column.go). Reflection-only fields
(`FieldIndex`, `FieldType`, `isPtr`, `isScanner`) are not needed by any
embedded operation and are omitted; the parent-table back-reference is
represented by the parent's `TableType` (`parentTableType`), which is all
`FieldTagString` reads from it. `Type` is a reserved word in Lean, so the
data-type field is called `Typ`. -/
structure Column where
  TableName : String := ""
  TableDescription : String := ""
  TableType : PG.TableType := .Base
  parentTableType : Option PG.TableType := none
  Name : String := ""
  Typ : DataType := .InvalidDataType
  Description : String := ""
  OrdinalPosition : Nat := 0
  FieldName : String := ""
  TypeArgument : String := ""
  PrimaryKey : Bool := false
  Identity : Bool := false
  Default : String := ""
  CheckConstraint : String := ""
  Unique : Bool := false
  Conflict : String := ""
  Username : Bool := false
  Password : Bool := false
  Nullable : Bool := false
  ReferenceTableName : String := ""
  ReferenceColumnName : String := ""
  DeferrableReference : Bool := false
  ReferenceOnDelete : String := ""
  Index : IndexType := .InvalidIndex
  UniqueIndex : String := ""
  Presenter : Bool := false
  AutoGenerated : Bool := false
  Unscannable : Bool := false
  deriving DecidableEq, Repr

/-- `Column.IsGeneratedTimestamp()`. -/
def Column.IsGeneratedTimestamp (c : Column) : Bool :=
  if c.Typ.IsTime then
    let defaultValue := goToLower c.Default
    defaultValue = "clock_timestamp()" || defaultValue = "now()"
  else false

/-- `Column.IsGeneratedPrimaryUUID()`. -/
def Column.IsGeneratedPrimaryUUID (c : Column) : Bool :=
  c.PrimaryKey && !c.Nullable && c.Typ = DataType.UUID &&
    (c.Default = "gen_random_uuid()" || c.Default = "uuid_generate_v4()")

/-- `Column.IsGenerated()`. -/
def Column.IsGenerated (c : Column) : Bool :=
  c.IsGeneratedPrimaryUUID || c.IsGeneratedTimestamp

/-- `PasswordHandler` (part_017): the engine only observes whether the
`Encrypt`/`Decrypt` hooks are present, so the handler is modelled by the
two booleans `canEncrypt`/`canDecrypt` (a `nil` handler is both-false). -/
structure PasswordHandler where
  canEncrypt : Bool := false
  canDecrypt : Bool := false
  deriving DecidableEq, Repr

/-- `Table` of table.go (the fields the embedded operations read). -/
structure Table where
  Typ : TableType := .Base
  StructName : String := ""
  SearchPath : String := "public"
  Name : String := ""
  Description : String := ""
  Strict : Bool := false
  Columns : List Column := []
  PasswordHandler : PasswordHandler := {}
  deriving DecidableEq, Repr

/-- `Table.GetColumnByName` (case-insensitive). -/
def Table.GetColumnByName (td : Table) (name : String) : Option Column :=
  td.Columns.find? (fun col => goEqualFold col.Name name)

/-- `Table.PrimaryKey()`: the first primary-key column, if any. -/
def Table.PrimaryKeyCol (td : Table) : Option Column :=
  td.Columns.find? (fun c => c.PrimaryKey)

/-- `Table.OnConflict()`: the first non-empty per-column conflict action. -/
def Table.OnConflict (td : Table) : String × Bool :=
  match td.Columns.find? (fun c => c.Conflict ≠ "") with
  | some c => (c.Conflict, true)
  | none => ("", false)

/-- `Table.UniqueIndexes()[name]` lookup: the names of the columns declaring
membership in the named unique-index group, in declared column order
(the Go map is only ever indexed, never iterated, by the insert builder). -/
def Table.UniqueIndexLookup (td : Table) (name : String) : Option (List String) :=
  let cols := td.Columns.filterMap
    (fun c => if c.UniqueIndex = "" then none
              else if c.UniqueIndex = name then some c.Name else none)
  if cols.isEmpty then none else some cols

/-! ## Annotation parsing (desc/struct_table.go) -/

/-- `isForeignKeyOnDeleteActionValid`. -/
def isForeignKeyOnDeleteActionValid (s : String) : Bool :=
  let u := goToUpper s
  u = "NO ACTION" || u = "CASCADE" || u = "RESTRICT" || u = "SET NULL" || u = "SET DEFAULT"

/-- Case-insensitive literal-prefix test, for `(?i)` regex literals. -/
def ciStarts (pat : String) (l : List Char) : Bool :=
  listStartsWith (goToLower pat).toList (l.map Char.toLower)

/-- The tail of `refLineRegex` after the optional action:
`\s*(\w*)?\)$` — spaces, an optional word, then the final `)` which must end
the string. Returns the captured word. -/
def refLineTail (r : List Char) : Option String :=
  let r4 := r.dropWhile isSpaceChar
  let w := r4.takeWhile isWordChar
  match r4.drop w.length with
  | [')'] => some (String.mk w)
  | _ => none

/-- The on-delete alternatives of `refLineRegex`, in the order written. -/
def refActionAlts : List String :=
  ["no action", "cascade", "restrict", "set null", "set default"]

/-- `(no action|cascade|restrict|set null|set default)?\s*(\w*)?\)$` with the
regex engine's backtracking: alternatives are tried in order, and the empty
alternative last. Returns the captured (action, word). -/
def refLineActions : List String → List Char → Option (String × String)
  | [], r2 =>
    (refLineTail r2).map (fun w => ("", w))
  | a :: rest, r2 =>
    if ciStarts a r2 then
      match refLineTail (r2.drop a.toList.length) with
      | some w => some (String.mk (r2.take a.toList.length), w)
      | none => refLineActions rest r2
    else refLineActions rest r2

/-- One attempt of `refLineRegex` at a given start position:
`(\w+)\((\w+)\s*(action)?\s*(\w*)?\)$`. -/
def refLineTryAt (l : List Char) : Option (String × String × String × String) :=
  let tbl := l.takeWhile isWordChar
  if tbl.isEmpty then none
  else
    match l.drop tbl.length with
    | '(' :: rest =>
      let col := rest.takeWhile isWordChar
      if col.isEmpty then none
      else
        let r2 := (rest.drop col.length).dropWhile isSpaceChar
        match refLineActions refActionAlts r2 with
        | some (act, w) => some (String.mk tbl, String.mk col, act, w)
        | none => none
    | _ => none

/-- `refLineRegex.FindStringSubmatch`: leftmost start position at which the
pattern (anchored at the end by `\)$`) matches. -/
def refLineFind : List Char → Option (String × String × String × String)
  | [] => none
  | h :: t =>
    match refLineTryAt (h :: t) with
    | some m => some m
    | none => refLineFind t

/-- `parseReferenceTagValue` of struct_table.go. -/
def parseReferenceTagValue (value : String) :
    Except String (String × String × String × Bool) :=
  match refLineFind value.toList with
  | none => .error ("invalid reference tag: " ++ value)
  | some (refTableName, refColumnName, act, w) =>
    let onDeleteAction := goToUpper act
    let onDeleteAction := if onDeleteAction = "" then "CASCADE" else onDeleteAction
    let deferrableValue := goToUpper w
    if deferrableValue ≠ "" && deferrableValue ≠ "DEFERRABLE" then
      .error ("invalid reference tag: " ++ value ++ ": invalid deferrable value: " ++ deferrableValue)
    else
      let isDeferrable := deferrableValue = "DEFERRABLE"
      if !isForeignKeyOnDeleteActionValid onDeleteAction then
        .error ("invalid reference tag: " ++ value ++ ": invalid on delete action: " ++ onDeleteAction)
      else if isDeferrable && onDeleteAction = "RESTRICT" then
        .error ("invalid reference tag: " ++ value ++ ": deferrable reference cannot have RESTRICT on delete")
      else
        .ok (refTableName, refColumnName, onDeleteAction, isDeferrable)

/-- `characterVaryingCastText`. -/
def characterVaryingCastText : String := "::character varying"

/-- A struct field as the annotation parser sees it: the field name, the
column name derived by `ToColumnName`, the data type derived by
`goTypeToDataType` from the host type, and the raw `pg` tag value
(reflection itself stays outside the embedding). -/
structure StructField where
  FieldName : String := ""
  columnName : String := ""
  goType : DataType := .InvalidDataType
  Tag : String := ""
  deriving DecidableEq, Repr

/-- First index of a character, Go `strings.IndexByte` (`none` for -1). -/
def idxOfChar (s : String) (c : Char) : Option Nat :=
  s.toList.indexOf? c

/-- `strconv.ParseBool` lifted to the parser's error monad. -/
def parseBoolE (value : String) : Except String Bool :=
  match goParseBool value with
  | some b => .ok b
  | none => .error ("strconv.ParseBool: parsing \"" ++ value ++ "\": invalid syntax")

/-- One iteration of the option loop of `convertStructFieldToColumnDefinion`. -/
def applyTagOption (tableName : String) (field : StructField) (c : Column) (opt : String) :
    Except String Column :=
  if opt = "" then .ok c -- skip empty, e.g name,
  else
    let kv := goSplitN2 opt '='
    let key := kv.1
    let value :=
      match kv.2 with
      | none => -- shorthand for boolean options and default values if tag exists.
        if opt = "index" then IndexType.Btree.str
        else if opt = "unique_index" then "" -- keep the value as it is.
        else "true"
      | some v => v
    match key with
    | "name" => .ok { c with Name := value }
    | "type" =>
      match idxOfChar value '(' with
      | some leftParenIndex =>
        if leftParenIndex > 0 then
          -- contains type arguments, e.g. length of varchar.
          match idxOfChar value ')' with
          | none =>
            .error ("struct field: " ++ field.FieldName ++ ": option: " ++ opt ++
              ": type: missing right parenthesis")
          | some rightParenIndex =>
            let chars := value.toList
            let arg := String.mk ((chars.drop (leftParenIndex + 1)).take (rightParenIndex - (leftParenIndex + 1)))
            let c := { c with TypeArgument := arg }
            let value := goTrimSpace (String.mk (chars.take leftParenIndex))
            let c := { c with Typ := (ParseDataType value).1 }
            -- make ts_vector types unscannable by-default.
            .ok (if c.Typ = DataType.TsVector then { c with Unscannable := true } else c)
        else
          let c := { c with Typ := (ParseDataType value).1 }
          .ok (if c.Typ = DataType.TsVector then { c with Unscannable := true } else c)
      | none =>
        let c := { c with Typ := (ParseDataType value).1 }
        .ok (if c.Typ = DataType.TsVector then { c with Unscannable := true } else c)
    | "primary" => do
      let v ← parseBoolE value
      .ok { c with PrimaryKey := v }
    | "pk" => do
      let v ← parseBoolE value
      .ok { c with PrimaryKey := v }
    | "identity" => do
      let v ← parseBoolE value
      .ok { c with Identity := v, AutoGenerated := true }
    | "default" =>
      -- set Nullable to true if the default value is "null".
      if value = "null" then .ok { c with Default := value, Nullable := true }
      else .ok { c with Default := value }
    | "unique" => do
      let v ← parseBoolE value
      .ok { c with Unique := v }
    | "conflict" => .ok { c with Conflict := value }
    | "username" => do
      let v ← parseBoolE value
      .ok { c with Username := v }
    | "password" => do
      let v ← parseBoolE value
      .ok { c with Password := v }
    | "nullable" => do
      let v ← parseBoolE value
      if v then .ok { c with Default := "null", Nullable := v }
      else -- clear default=null if nullable was forcely set to false.
        .ok (if c.Default = "null" then { c with Default := "" } else c)
    | "null" => do
      let v ← parseBoolE value
      if v then .ok { c with Default := "null", Nullable := v }
      else
        .ok (if c.Default = "null" then { c with Default := "" } else c)
    | "ref" | "reference" | "references" =>
      -- If no specific tablename(column) syntax then set it to this table.
      let value := if !goContainsChar value '(' then tableName ++ "(" ++ value ++ ")" else value
      match idxOfChar value '(' with
      | none =>
        .error ("struct field: " ++ field.FieldName ++ ": invalid reference tag: " ++ field.Tag)
      | some _ =>
        match parseReferenceTagValue value with
        | .error e => .error ("struct field: " ++ field.FieldName ++ ": " ++ e)
        | .ok (refTableName, refColumnName, onDeleteAction, isDeferrable) =>
          .ok { c with
            ReferenceTableName := refTableName,
            ReferenceColumnName := refColumnName,
            ReferenceOnDelete := onDeleteAction,
            DeferrableReference := isDeferrable }
    | "index" =>
      let idx := parseIndexType value
      if idx = IndexType.InvalidIndex then
        .error ("struct field: " ++ field.FieldName ++ ": invalid index type on tag: " ++
          field.Tag ++ ": value: " ++ value)
      else .ok { c with Index := idx }
    | "unique_index" =>
      let c := { c with UniqueIndex := value }
      if c.Unique then .error "unqiue and unique_index cannot be used together"
      else .ok c
    | "check" => .ok { c with CheckConstraint := value }
    | "auto" => do
      let v ← parseBoolE value
      .ok { c with AutoGenerated := v }
    | "presenter" => do
      let v ← parseBoolE value
      .ok { c with Presenter := v }
    | "unscannable" => do
      let v ← parseBoolE value
      .ok { c with Unscannable := v }
    | _ =>
      if !goContainsChar opt ',' then
        -- we expect this is just a name (e.g. `pg:"id"`).
        .ok { c with Name := key }
      else .error ("unexpected tag option: " ++ key)

/-- The option loop of `convertStructFieldToColumnDefinion`, left to right. -/
def applyTagOptions (tableName : String) (field : StructField) :
    Column → List String → Except String Column
  | c, [] => .ok c
  | c, opt :: rest =>
    match applyTagOption tableName field c opt with
    | .error e => .error e
    | .ok c => applyTagOptions tableName field c rest

/-- `convertStructFieldToColumnDefinion` of struct_table.go. -/
def convertStructFieldToColumnDefinion (tableName : String) (field : StructField) :
    Except String Column :=
  let c : Column := {
    TableName := tableName,
    Name := field.columnName,
    Typ := field.goType,
    FieldName := field.FieldName }
  let options := goSplit field.Tag ','
  match applyTagOptions tableName field c options with
  | .error e => .error e
  | .ok c =>
    -- auto-assign a random-UUID default to a plain UUID primary key.
    let c :=
      if c.PrimaryKey && !c.Nullable && c.Typ = DataType.UUID && c.Default = "" &&
          c.ReferenceColumnName = "" then
        { c with Default := "gen_random_uuid()" }
      else c
    let c := if c.Password && c.Typ = DataType.InvalidDataType then { c with Typ := DataType.Text } else c
    if c.Typ = DataType.InvalidDataType then
      .error ("struct field: " ++ field.FieldName ++ ": invalid data type on tag: " ++ field.Tag)
    else
      -- add ::character varying to the default value of character-varying columns.
      let c :=
        if c.Typ = DataType.CharacterVarying then
          if c.Default ≠ "" then
            if !goHasSuf (goToLower c.Default) characterVaryingCastText then
              { c with Default := c.Default ++ characterVaryingCastText }
            else c
          else c
        else c
      .ok c

/-! ## Tag rendering (part_022: `writeTagProp`, `Column.FieldTagString`) -/

/-- `DefaultTag` of insert_query.go (second document). -/
def DefaultTag : String := "pg"

/-- A value passed to `writeTagProp`: Go `nil`, a string, or a boolean. -/
inductive TagVal where
  | vnil
  | vstr (s : String)
  | vbool (b : Bool)
  deriving DecidableEq, Repr

/-- `isZero` of zeroer.go restricted to the two value kinds `writeTagProp`
receives (empty string / false boolean). -/
def TagVal.isZero : TagVal → Bool
  | .vnil => true
  | .vstr s => s = ""
  | .vbool b => !b

/-- `writeTagProp` of part_022: returns the text appended to the builder. -/
def writeTagProp (key : String) (value : TagVal) : String :=
  if key = "" then ""
  else
    match value with
    | .vnil => key
    | v =>
      if v.isZero then "" -- don't write if arg value is empty, e.g. "".
      else if !goContainsChar key '%' then key -- probably just a boolean key.
      else
        match v with
        | .vbool _ => key -- a true boolean with a format key still writes the bare key.
        | .vstr s => sprintf1 key.toList s
        | .vnil => key

/-- `Column.FieldTagString` of part_022. -/
def Column.FieldTagString (c : Column) (strict : Bool) : String :=
  let b := DefaultTag ++ ":\""
  let b := b ++ writeTagProp "name=%s" (.vstr c.Name)
  let b := b ++ writeTagProp ",type=%s" (.vstr c.Typ.str)
  if (match c.parentTableType with | some t => t.IsReadOnly | none => false) ||
      c.TableType.IsReadOnly then
    -- If it's a view then don't write the rest of the tags.
    b ++ "\""
  else
    let b := if strict then b ++ writeTagProp "(%s)" (.vstr c.TypeArgument) else b
    let b := b ++ writeTagProp ",primary" (.vbool c.PrimaryKey)
    let b := b ++ writeTagProp ",identity" (.vbool c.Identity)
    let b :=
      if c.Nullable then
        b ++ writeTagProp ",nullable" (.vbool true)
      else
        -- non-strict rendering cuts a trailing ::TYPE cast from the default.
        let defaultValue :=
          if !strict then
            (dataTypeAliases c.Typ).foldl (fun d name => goTrimSuf d ("::" ++ name)) c.Default
          else c.Default
        b ++ writeTagProp ",default=%s" (.vstr defaultValue)
    let b := b ++ writeTagProp ",unique" (.vbool c.Unique)
    let b := b ++ writeTagProp ",conflict=%s" (.vstr c.Conflict)
    let b :=
      if strict then
        b ++ writeTagProp ",username" (.vbool c.Username) ++
          writeTagProp ",password" (.vbool c.Password)
      else b
    let b :=
      if c.ReferenceTableName ≠ "" then
        -- write the ref line.
        let b := b ++ writeTagProp ",ref=%s" (.vstr c.ReferenceTableName)
        if c.ReferenceColumnName ≠ "" then
          let b := b ++ writeTagProp "(%s" (.vstr c.ReferenceColumnName)
          let b :=
            if c.ReferenceOnDelete ≠ "" then
              b ++ writeTagProp (" " ++ c.ReferenceOnDelete) .vnil
            else b
          let b := b ++ writeTagProp " deferrable" (.vbool c.DeferrableReference)
          b ++ writeTagProp ")" .vnil
        else b
      else b
    let b :=
      if c.Index ≠ IndexType.InvalidIndex then
        b ++ writeTagProp ",index=%s" (.vstr c.Index.str)
      else b
    let b := b ++ writeTagProp ",unique_index=%s" (.vstr c.UniqueIndex)
    let b := b ++ writeTagProp ",check=%s" (.vstr c.CheckConstraint)
    let b :=
      if strict then
        b ++ writeTagProp ",auto" (.vbool c.AutoGenerated) ++
          writeTagProp ",presenter" (.vbool c.Presenter) ++
          writeTagProp ",unscannable" (.vbool c.Unscannable)
      else b
    b ++ "\""

/-! ## Schema reconciliation (db_information.go `DB.CheckSchema`, column step) -/

/-- The per-column body of `DB.CheckSchema`: `col` is the live (introspected)
column, `column` is the matching code-declared column. The lowered non-strict
tag renderings are compared; a difference is a hard error carrying both
renderings; on a match the code column's missing description is filled from
the live one. The returned pair is (live, code) after the body runs — the
source never writes to the live column. -/
def checkSchemaColumnPair (tableName : String) (col column : Column) :
    Except String (Column × Column) :=
  let expected := goToLower (col.FieldTagString false)
  let got := goToLower (column.FieldTagString false)
  if expected ≠ got then
    .error ("column " ++ goQuote col.Name ++ " in table " ++ goQuote tableName ++
      " has wrong field tag: db:\n" ++ expected ++ "\nvs code:\n" ++ got)
  else
    let column := if column.Description = "" then { column with Description := col.Description }
      else column
    .ok (col, column)

/-! ## Arguments (values extracted from a record) -/

/-- A Go value as the zero-value filter sees it (zeroer.go cases for the
basic kinds; `vnull` is Go `nil`). -/
inductive GoValue where
  | vnull
  | vstr (s : String)
  | vint (n : Int)
  | vbool (b : Bool)
  deriving DecidableEq, Repr

/-- `isZero` of zeroer.go on the embedded value kinds. -/
def GoValue.isZero : GoValue → Bool
  | .vnull => true
  | .vstr s => s = ""
  | .vint n => n = 0
  | .vbool b => !b

/-- `Argument`: a column definition paired with the record's value for it. -/
structure Argument where
  Column : Column
  Value : GoValue := .vnull
  deriving DecidableEq, Repr

/-- `Arguments.Values()`. -/
def argumentsValues (args : List Argument) : List GoValue :=
  args.map (·.Value)

/-! ## INSERT / UPSERT builder (desc/insert_query.go) -/

/-- `writeTableName`. -/
def writeTableName (schema tableName : String) : String :=
  goQuote schema ++ "." ++ goQuote tableName

/-- `PasswordAlg`. -/
def PasswordAlg : String := "bf"

/-- `buildInsertPassword`: `crypt($n,gen_salt('bf'))`. -/
def buildInsertPassword (paramName : String) : String :=
  "crypt(" ++ paramName ++ ",gen_salt(" ++ sq ++ PasswordAlg ++ sq ++ "))"

/-- `writeInsertReturning`: the text appended for a RETURNING clause.
Note: like the source, it never checks `columnKey` for emptiness. -/
def writeInsertReturning (columnKey : String) : String :=
  " RETURNING " ++ columnKey

/-- The conflict-candidate accumulation of `buildInsertQuery`'s argument
loop: with a declared per-column conflict action, unique-flagged inserted
columns are candidates; otherwise columns belonging to a named unique index. -/
def insertConflictCandidates (hasConflict : Bool) (args : List Argument) : List String :=
  args.filterMap (fun a =>
    if hasConflict then
      if a.Column.Unique then some a.Column.Name else none
    else
      if a.Column.UniqueIndex ≠ "" then some a.Column.Name else none)

/-- The parameter placeholder for one inserted column (`$n`, or the
`crypt(...)` wrapper for password columns without an encrypt hook). -/
def insertParamName (td : Table) (c : Column) (paramIndex : Nat) : String :=
  let paramName := "$" ++ toString paramIndex
  if c.Password then
    if td.PasswordHandler.canEncrypt then paramName else buildInsertPassword paramName
  else paramName

/-- `columnNamesToInsert` of the argument loop. -/
def insertColumnNames (args : List Argument) : List String :=
  args.map (·.Column.Name)

/-- `namedParametersValues` of the argument loop. -/
def insertNamedParameters (td : Table) (args : List Argument) : List String :=
  args.enum.map (fun p => insertParamName td p.2.Column (p.1 + 1))

/-- The `DO UPDATE SET col = EXCLUDED.col, ...` expression built over every
inserted column except the conflict-target columns. -/
def doUpdateSetExpr (columnNamesToInsert conflicts : List String) : String :=
  "DO UPDATE SET " ++
    goJoin ((columnNamesToInsert.filter (fun n => !conflicts.contains n)).map
      (fun n => n ++ " = EXCLUDED." ++ n)) ","

/-- The conflict-resolution block of `buildInsertQuery` (insert_query.go
lines 111-182): returns the final conflict-target column list and the
ON CONFLICT action expression. -/
def resolveOnConflict (td : Table) (args : List Argument) (forceOnConflictExpr : String)
    (upsert : Bool) : Except String (List String × String) :=
  let oc := td.OnConflict
  let onConflictExpression := oc.1
  let hasConflict := oc.2
  let conflicts := insertConflictCandidates hasConflict args
  let columnNamesToInsert := insertColumnNames args
  if forceOnConflictExpr ≠ "" then
    match td.UniqueIndexLookup forceOnConflictExpr with
    | some selectedUniqueIndexColumns =>
      -- override the conflicts with the named group's columns.
      .ok (selectedUniqueIndexColumns, doUpdateSetExpr columnNamesToInsert selectedUniqueIndexColumns)
    | none =>
      -- if not found then check for unique index OR unique by column name.
      let conflicts :=
        if conflicts.contains forceOnConflictExpr then [forceOnConflictExpr] else conflicts
      if conflicts.isEmpty then
        .error ("can" ++ sq ++ "t find unique index with name: " ++ forceOnConflictExpr)
      else
        .ok (conflicts, doUpdateSetExpr columnNamesToInsert conflicts)
  else if upsert && !conflicts.isEmpty && !hasConflict then
    .ok (conflicts, doUpdateSetExpr columnNamesToInsert conflicts)
  else
    -- unique tags without a custom on-conflict expression are ignored.
    .ok ([], onConflictExpression)

/-- The RETURNING decision of `buildInsertQuery` (lines 194-212): with an
ON CONFLICT clause the returning column is written only when the action
contains `DO UPDATE`; without one, whenever a returning column is set. -/
def insertReturningEmitted (conflicts : List String) (onConflictExpression returningColumn : String) :
    Bool :=
  if !conflicts.isEmpty then
    returningColumn ≠ "" && goContains (goToUpper onConflictExpression) "DO UPDATE"
  else
    returningColumn ≠ ""

/-- Everything `buildInsertQuery` writes before the RETURNING decision:
`INSERT INTO "schema"."table" (cols) VALUES(params)` plus, when the resolved
conflict-target list is non-empty, ` ON CONFLICT(cols) <expression>`. -/
def insertQueryPrefix (td : Table) (args : List Argument) (conflicts : List String)
    (onConflictExpression : String) : String :=
  let pre := "INSERT INTO " ++ writeTableName td.SearchPath td.Name ++ " (" ++
    goJoin (insertColumnNames args) "," ++ ") VALUES(" ++
    goJoin (insertNamedParameters td args) "," ++ ")"
  if !conflicts.isEmpty then
    pre ++ " ON CONFLICT(" ++ goJoin conflicts "," ++ ") " ++ onConflictExpression
  else pre

/-- The full text `buildInsertQuery` produces for resolved conflict data. -/
def insertQueryText (td : Table) (args : List Argument) (conflicts : List String)
    (onConflictExpression returningColumn : String) : String :=
  insertQueryPrefix td args conflicts onConflictExpression ++
    (if insertReturningEmitted conflicts onConflictExpression returningColumn then
      writeInsertReturning returningColumn
    else "") ++ ";"

/-- `buildInsertQuery` of insert_query.go. -/
def buildInsertQuery (td : Table) (args : List Argument) (returningColumn : String)
    (forceOnConflictExpr : String) (upsert : Bool) : Except String String :=
  if args.isEmpty then .error "no columns to insert"
  else
    match resolveOnConflict td args forceOnConflictExpr upsert with
    | .error e => .error e
    | .ok (conflicts, onConflictExpression) =>
      .ok (insertQueryText td args conflicts onConflictExpression returningColumn)

/-- `BuildInsertQuery` of insert_query.go. The reflection-driven
`extractArguments` is outside the provided sources; the extracted arguments
are supplied directly, and the destination pointer by the flag `hasIdPtr`. -/
def BuildInsertQuery (td : Table) (args : List Argument) (hasIdPtr : Bool)
    (forceOnConflictExpr : String) (upsert : Bool) : Except String (String × List GoValue) :=
  let returningColumn :=
    if hasIdPtr then
      match td.PrimaryKeyCol with
      | some columnDefinition => columnDefinition.Name
      | none => ""
    else ""
  if args.isEmpty then
    .error ("no arguments found, maybe missing struct field tag of \"" ++ DefaultTag ++ "\"")
  else
    match buildInsertQuery td args returningColumn forceOnConflictExpr upsert with
    | .error e => .error e
    | .ok query => .ok (query, argumentsValues args)

/-! ## EXISTS / WHERE helper (part_017) -/

/-- `buildWhereSubQueryByArguments`. -/
def buildWhereSubQueryByArguments (args : List Argument) : String :=
  " WHERE " ++
    goJoin (args.enum.map (fun p => p.2.Column.Name ++ " = $" ++ toString (p.1 + 1))) " AND "

/-! ## DUPLICATE builder (desc/constraint.go, `BuildDuplicateQuery`) -/

/-- Modelled from the spec: `Table.listColumnsForSelectWithoutGenerated` is
called by `BuildDuplicateQuery` but its definition is not among the provided
sources. Per the spec's DUPLICATE description (the insertable column list)
and `duplicate_query_test.go` (which expects the generated-uuid primary key
and the generated-timestamp column to be excluded), it keeps every column
that is neither presenter-marked nor generated. -/
def Table.listColumnsForSelectWithoutGenerated (td : Table) : List Column :=
  td.Columns.filter (fun c => !c.Presenter && !c.IsGenerated)

/-- `BuildDuplicateQuery` of constraint.go. The destination pointer is
modelled by `hasIdPtr` (`idPtr != nil`). Note that, like the source, the
final `writeInsertReturning` is appended unconditionally. -/
def BuildDuplicateQuery (td : Table) (hasIdPtr : Bool) : Except String String :=
  match td.PrimaryKeyCol with
  | none => .error "duplicate: no primary key"
  | some primaryKey =>
    let returningColumn := if hasIdPtr then primaryKey.Name else ""
    let columns := td.listColumnsForSelectWithoutGenerated
    let selectColumns := columns.map (fun c =>
      if c.ReferenceColumnName = primaryKey.Name && c.ReferenceTableName = td.Name then
        -- If self reference, then COALESCE(source_id, id).
        "COALESCE(" ++ c.Name ++ ", " ++ primaryKey.Name ++ ")"
      else c.Name)
    let b := "INSERT INTO " ++ writeTableName td.SearchPath td.Name ++ " (" ++
      goJoin (columns.map (·.Name)) "," ++ ")"
    let b := b ++ " SELECT " ++ goJoin selectColumns ","
    let b := b ++ " FROM " ++ writeTableName td.SearchPath td.Name
    let b := b ++ buildWhereSubQueryByArguments [{ Column := primaryKey }]
    let b := b ++ writeInsertReturning returningColumn
    .ok (b ++ ";")

/-! ## UPDATE builder (desc/trigger.go) -/

/-- Modelled from the spec: `extractArguments` (reflection-driven, not among
the provided sources). It collects the (column, value) pairs of the record's
non-presenter fields; the optional callback filters them by column name, as
`extractUpdateArguments` uses it. -/
def extractArguments (record : List Argument) (filter : Option (String → Bool)) :
    List Argument :=
  let eligible := record.filter (fun a => !a.Column.Presenter)
  match filter with
  | none => eligible
  | some f => eligible.filter (fun a => f a.Column.Name)

/-- Modelled from the spec: `filterArgumentsForFullUpdate` (not among the
provided sources). For a full update, zero-valued fields are dropped from
the SET list. -/
def filterArgumentsForFullUpdate (args : List Argument) : List Argument :=
  args.filter (fun a => !a.Value.isZero)

/-- Modelled from the spec: `Arguments.ShiftEnd` (not among the provided
sources). Per its caller's comment, it adds — or moves, removing any entry
with the same column name — the argument to the end of the list. -/
def argumentsShiftEnd (args : List Argument) (arg : Argument) : List Argument :=
  args.filter (fun a => a.Column.Name ≠ arg.Column.Name) ++ [arg]

/-- `extractUpdateArguments` of trigger.go. The record's extracted pairs and
the primary-key value (`ExtractPrimaryKeyValue`, reflection) are supplied
directly. -/
def extractUpdateArguments (record : List Argument) (columnsToUpdate : List String)
    (primaryKey : Column) (id : GoValue) : Except String (List Argument) :=
  let args := extractArguments record (some (fun fieldName =>
    if columnsToUpdate.isEmpty then true -- full update.
    else columnsToUpdate.contains fieldName))
  let args :=
    if columnsToUpdate.isEmpty then filterArgumentsForFullUpdate args else args
  if args.isEmpty then
    .error ("no arguments found for update, maybe missing struct field tag of \"" ++
      DefaultTag ++ "\"")
  else
    .ok (argumentsShiftEnd args { Column := primaryKey, Value := id })

/-- The SET-list loop of `buildUpdateQuery` (trigger.go lines 104-130):
walks the indexed arguments, skipping the primary key unless it is to be
updated; returns the written text and the final parameter index. -/
def buildUpdateQueryLoop (td : Table) (primaryKeyName : String) (shouldUpdateID : Bool) :
    List (Nat × Argument) → Nat → String × Nat
  | [], paramIndex => ("", paramIndex)
  | (i, a) :: rest, paramIndex =>
    if !shouldUpdateID && a.Column.Name = primaryKeyName then
      -- Do not update ID if not specifically asked to.
      buildUpdateQueryLoop td primaryKeyName shouldUpdateID rest paramIndex
    else
      let paramName := "$" ++ toString (paramIndex + 1)
      let paramName :=
        if a.Column.Password then
          if td.PasswordHandler.canEncrypt then paramName else buildInsertPassword paramName
        else paramName
      let item := (if i > 0 then "," else "") ++ goQuote a.Column.Name ++ " = " ++ paramName
      let res := buildUpdateQueryLoop td primaryKeyName shouldUpdateID rest (paramIndex + 1)
      (item ++ res.1, res.2)

/-- `buildUpdateQuery` of trigger.go. -/
def buildUpdateQuery (td : Table) (args : List Argument) (primaryKeyName : String)
    (shouldUpdateID : Bool) : String :=
  let res := buildUpdateQueryLoop td primaryKeyName shouldUpdateID args.enum 0
  let primaryKeyWhereIndex := if shouldUpdateID then res.2 else res.2 + 1
  "UPDATE " ++ goQuote td.Name ++ " SET " ++ res.1 ++
    " WHERE " ++ goQuote primaryKeyName ++ " = $" ++ toString primaryKeyWhereIndex ++ ";"

/-- `BuildUpdateQuery` of trigger.go. The primary key's owning table
(`primaryKey.Table`) is passed explicitly as `td`. -/
def BuildUpdateQuery (td : Table) (record : List Argument) (columnsToUpdate : List String)
    (primaryKey : Column) (id : GoValue) : Except String (String × List GoValue) :=
  match extractUpdateArguments record columnsToUpdate primaryKey id with
  | .error e => .error e
  | .ok args =>
    let shouldUpdateID := columnsToUpdate.contains primaryKey.Name
    if args.length = 1 then -- the last one is the id.
      .error ("no arguments found for update, maybe missing struct field tag of \"" ++
        DefaultTag ++ "\"")
    else
      .ok (buildUpdateQuery td args primaryKey.Name shouldUpdateID, argumentsValues args)

/-! ## Row scanner (desc/scanner.go) -/

/-- The decode strategy bound to one returned field. -/
inductive ScanTarget where
  | direct
  | nullableScan
  | passwordText
  | noOp
  deriving DecidableEq, Repr

/-- The per-field body of `findScanTargets`: `none` models a nil entry in
the scan-target slice. -/
def scanTargetFor (td : Table) (fieldName : String) : Option ScanTarget :=
  match td.GetColumnByName fieldName with
  | none => none -- skip this column if there is no definition for it
  | some col =>
    if col.Unscannable then none -- skip this column if it is unscannable
    else if col.Password && td.PasswordHandler.canDecrypt then some .passwordText
    else if col.Nullable &&
        (col.Typ = DataType.UUID || col.Typ = DataType.Text ||
          col.Typ = DataType.CharacterVarying) then
      some .nullableScan
    else some .direct

/-- `findScanTargets`. -/
def findScanTargets (td : Table) (fieldDescs : List String) : List (Option ScanTarget) :=
  fieldDescs.map (scanTargetFor td)

/-- The nil-target loop of `ConvertRowsToStruct` (scanner.go lines 83-91):
a nil target errors on a strict table and becomes a no-op scanner otherwise. -/
def fillScanTargets (strict : Bool) :
    List (String × Option ScanTarget) → Except String (List ScanTarget)
  | [] => .ok []
  | (n, none) :: rest =>
    if strict then
      .error ("struct doesn" ++ sq ++ "t have corresponding row field: " ++ n ++ " (strict check)")
    else
      match fillScanTargets strict rest with
      | .error e => .error e
      | .ok ts => .ok (.noOp :: ts)
  | (_, some t) :: rest =>
    match fillScanTargets strict rest with
    | .error e => .error e
    | .ok ts => .ok (t :: ts)

/-- The scan-target preparation of `ConvertRowsToStruct`: find the targets
for the returned fields, then resolve nil targets per the strict flag. -/
def ConvertRowsToStructTargets (td : Table) (fieldDescs : List String) :
    Except String (List ScanTarget) :=
  fillScanTargets td.Strict (fieldDescs.map (fun f => (f, scanTargetFor td f)))

/-! ## Catalog constraint decoding (struct_table.go second document —
the current `constraint.go`) -/

/-- `ConstraintType`. -/
inductive ConstraintType where
  | NoneConstraintType
  | PrimaryKeyConstraintType
  | UniqueConstraintType
  | ForeignKeyConstraintType
  | CheckConstraintType
  | IndexConstraintType
  deriving DecidableEq, Repr

/-- `UniqueConstraint`. -/
structure UniqueConstraint where
  Columns : List String
  deriving DecidableEq, Repr

/-- `CheckConstraint`. -/
structure CheckConstraint where
  Expression : String
  deriving DecidableEq, Repr

/-- `ForeignKeyConstraint` (the current version, with `OnUpdate`). -/
structure ForeignKeyConstraint where
  ColumnName : String := ""
  ReferenceTableName : String := ""
  ReferenceColumnName : String := ""
  OnDelete : String := ""
  OnUpdate : String := ""
  Deferrable : Bool := false
  deriving DecidableEq, Repr

/-- `Constraint`. The kind-specific payloads are Go pointers, so `Option`;
`none` is a nil payload. `ConstraintType`/`IndexType` are reserved by the
type names, so the fields are `constraintType`/`IndexTyp`. -/
structure Constraint where
  TableName : String := ""
  ColumnName : String := ""
  ConstraintName : String := ""
  constraintType : ConstraintType := .NoneConstraintType
  IndexTyp : IndexType := .InvalidIndex
  Unique : Option UniqueConstraint := none
  Check : Option CheckConstraint := none
  ForeignKey : Option ForeignKeyConstraint := none
  deriving DecidableEq, Repr

/-- `parseUniqueConstraint`: trims `UNIQUE (` and `)` and splits on `, `
(total — it never yields a nil payload). -/
def parseUniqueConstraint (constraintDefinition : String) : UniqueConstraint :=
  let input := goTrimPre constraintDefinition "UNIQUE ("
  let input := goTrimSuf input ")"
  { Columns := goSplitSub input ", " }

/-- The group capture of the check-constraint regex
`(?i)^CHECK\s*\(\s*\(?\s*(.*\S)\s*\)?\s*\)$` on the text strictly between
the mandatory outer parentheses: spaces, then — preferring to consume an
optional inner `(` with regex backtracking — the greedy group `(.*\S)`,
which absorbs everything up to the trailing spaces (so the optional `\)?`
never fires). -/
def checkGroup (mid : List Char) : Option String :=
  let extractG (t : List Char) : Option String :=
    let t1 := t.dropWhile isSpaceChar
    let g := (t1.reverse.dropWhile isSpaceChar).reverse
    if g.isEmpty then none else some (String.mk g)
  let m1 := mid.dropWhile isSpaceChar
  match m1 with
  | '(' :: t =>
    match extractG t with
    | some g => some g
    | none => extractG m1
  | _ => extractG m1

/-- `parseCheckConstraint` (the current regex-based version): `none` models
the nil payload returned when the definition does not match. -/
def parseCheckConstraint (constraintDefinition : String) : Option CheckConstraint :=
  let l := constraintDefinition.toList
  if !ciStarts "check" l then none
  else
    match (l.drop 5).dropWhile isSpaceChar with
    | '(' :: rest =>
      match rest.reverse with
      | ')' :: midRev =>
        match checkGroup midRev.reverse with
        | some expression => some { Expression := expression }
        | none => none
      | _ => none
    | _ => none

/-- The ON DELETE / ON UPDATE action alternatives, in the order the
foreign-key clause regexes write them. -/
def fkActionAlts : List String :=
  ["CASCADE", "RESTRICT", "NO ACTION", "SET NULL", "SET DEFAULT"]

/-- One attempt of `(?i)KEYWORD\s+(alternatives)` at a position. -/
def fkFindActionAt (kw : String) (l : List Char) : Option String :=
  if ciStarts kw l then
    let r := l.drop kw.toList.length
    let r1 := r.dropWhile isSpaceChar
    if r1.length = r.length then none -- \s+ needs at least one space
    else
      fkActionAlts.findSome? (fun a =>
        if ciStarts a r1 then some (String.mk (r1.take a.toList.length)) else none)
  else none

/-- Leftmost occurrence search for the ON DELETE / ON UPDATE clause regexes. -/
def fkScanAction (kw : String) : List Char → Option String
  | [] => none
  | h :: t =>
    match fkFindActionAt kw (h :: t) with
    | some a => some a
    | none => fkScanAction kw t

/-- `(?i)\bDEFERRABLE\b`: a case-insensitive occurrence with word boundaries
on both sides (`prev` is the character before the current position). -/
def fkScanDeferrable (prev : Option Char) : List Char → Bool
  | [] => false
  | h :: t =>
    (ciStarts "DEFERRABLE" (h :: t) &&
      (match prev with | some c => !isWordChar c | none => true) &&
      (match (h :: t).drop 10 with | [] => true | c :: _ => !isWordChar c)) ||
    fkScanDeferrable (some h) t

/-- `parseForeignKeyConstraint` (the current version): matches the base
pattern `(?i)^FOREIGN KEY\s*\((\w+)\)\s*REFERENCES\s*(\w+)\s*\((\w+)\)(.*)$`
and then searches the rest for the optional clauses; `none` models the nil
payload returned when the base pattern does not match. -/
def parseForeignKeyConstraint (constraintDefinition : String) :
    Option ForeignKeyConstraint :=
  let l := constraintDefinition.toList
  if !ciStarts "foreign key" l then none
  else
    match (l.drop 11).dropWhile isSpaceChar with
    | '(' :: r1 =>
      let col := r1.takeWhile isWordChar
      if col.isEmpty then none
      else
        match r1.drop col.length with
        | ')' :: r2 =>
          let r3 := r2.dropWhile isSpaceChar
          if !ciStarts "references" r3 then none
          else
            let r4 := (r3.drop 10).dropWhile isSpaceChar
            let tbl := r4.takeWhile isWordChar
            if tbl.isEmpty then none
            else
              match (r4.drop tbl.length).dropWhile isSpaceChar with
              | '(' :: r6 =>
                let rc := r6.takeWhile isWordChar
                if rc.isEmpty then none
                else
                  match r6.drop rc.length with
                  | ')' :: rest =>
                    let onDelete :=
                      match fkScanAction "ON DELETE" rest with
                      | some m => goToUpper (goTrimSpace m)
                      | none => ""
                    let onUpdate :=
                      match fkScanAction "ON UPDATE" rest with
                      | some m => goToUpper (goTrimSpace m)
                      | none => ""
                    some {
                      ColumnName := String.mk col,
                      ReferenceTableName := String.mk tbl,
                      ReferenceColumnName := String.mk rc,
                      OnDelete := onDelete,
                      OnUpdate := onUpdate,
                      Deferrable := fkScanDeferrable none rest }
                  | _ => none
              | _ => none
        | _ => none
    | _ => none

/-- One attempt of the simple-index regex
`CREATE INDEX (\w+) ON \w+\.(\w+) USING (\w+) \((\w+)\)` at a position. -/
def simpleIndexTryAt (l : List Char) : Option (String × String × String × IndexType) :=
  if listStartsWith "CREATE INDEX ".toList l then
    let r1 := l.drop 13
    let idxName := r1.takeWhile isWordChar
    if idxName.isEmpty then none
    else
      let r2 := r1.drop idxName.length
      if listStartsWith " ON ".toList r2 then
        let r3 := r2.drop 4
        let schema := r3.takeWhile isWordChar
        if schema.isEmpty then none
        else
          match r3.drop schema.length with
          | '.' :: r4 =>
            let tbl := r4.takeWhile isWordChar
            if tbl.isEmpty then none
            else
              let r5 := r4.drop tbl.length
              if listStartsWith " USING ".toList r5 then
                let r6 := r5.drop 7
                let method := r6.takeWhile isWordChar
                if method.isEmpty then none
                else
                  let r7 := r6.drop method.length
                  if listStartsWith " (".toList r7 then
                    let r8 := r7.drop 2
                    let colName := r8.takeWhile isWordChar
                    if colName.isEmpty then none
                    else
                      match r8.drop colName.length with
                      | ')' :: _ =>
                        some (String.mk idxName, String.mk tbl, String.mk colName,
                          parseIndexType (String.mk method))
                      | _ => none
                  else none
              else none
          | _ => none
      else none
  else none

/-- Leftmost-occurrence search of the (unanchored) simple-index regex. -/
def simpleIndexFind : List Char → Option (String × String × String × IndexType)
  | [] => none
  | h :: t =>
    match simpleIndexTryAt (h :: t) with
    | some m => some m
    | none => simpleIndexFind t

/-- `parseSimpleIndexConstraint`: zero values when the regex does not match
(index name, table name, column name, index type). -/
def parseSimpleIndexConstraint (constraintDefinition : String) :
    String × String × String × IndexType :=
  match simpleIndexFind constraintDefinition.toList with
  | some (indexName, tableName, columnName, indexType) =>
    (indexName, tableName, columnName, indexType)
  | none => ("", "", "", .InvalidIndex)

/-- `Constraint.Build`: decode the catalog's definition text into the
kind-specific payload. -/
def Constraint.Build (c : Constraint) (constraintDefinition : String) : Constraint :=
  match c.constraintType with
  | .UniqueConstraintType => { c with Unique := some (parseUniqueConstraint constraintDefinition) }
  | .CheckConstraintType => { c with Check := parseCheckConstraint constraintDefinition }
  | .ForeignKeyConstraintType =>
    { c with ForeignKey := parseForeignKeyConstraint constraintDefinition }
  | .IndexConstraintType =>
    let r := parseSimpleIndexConstraint constraintDefinition
    { c with ColumnName := r.2.2.1, IndexTyp := r.2.2.2 }
  | _ => c

/-- `Constraint.BuildColumn`: merge the constraint into a column.
`Option.none` models the Go nil-pointer dereference panic that the source
performs when a kind-specific payload is nil (`c.Unique.Columns`,
`c.Check.Expression`, `c.ForeignKey.ReferenceTableName`). -/
def Constraint.BuildColumn (c : Constraint) (column : Column) : Option Column :=
  let column :=
    if column.Index = IndexType.InvalidIndex then { column with Index := c.IndexTyp } else column
  match c.constraintType with
  | .PrimaryKeyConstraintType => some { column with PrimaryKey := true }
  | .UniqueConstraintType =>
    match c.Unique with
    | none => none
    | some u =>
      if u.Columns.isEmpty || (u.Columns.length = 1 && u.Columns.head? = some c.ColumnName) then
        some { column with Unique := true } -- simple unique to itself.
      else
        some { column with UniqueIndex := c.ConstraintName }
  | .CheckConstraintType =>
    match c.Check with
    | none => none
    | some ch => some { column with CheckConstraint := ch.Expression }
  | .ForeignKeyConstraintType =>
    match c.ForeignKey with
    | none => none
    | some fk =>
      some { column with
        ReferenceTableName := fk.ReferenceTableName,
        ReferenceColumnName := fk.ReferenceColumnName,
        ReferenceOnDelete := fk.OnDelete,
        DeferrableReference := fk.Deferrable }
  | .IndexConstraintType => some { column with Index := c.IndexTyp }
  | .NoneConstraintType => some column

/-! ## Shared string lemmas -/

theorem listStartsWith_append_self (l r : List Char) : listStartsWith l (l ++ r) = true := by
  induction l with
  | nil => rfl
  | cons h t ih => simp [listStartsWith, ih]

theorem listStartsWith_extend (p l r : List Char) (h : listStartsWith p l = true) :
    listStartsWith p (l ++ r) = true := by
  induction p generalizing l with
  | nil => rfl
  | cons ph pt ih =>
    cases l with
    | nil => simp [listStartsWith] at h
    | cons lh lt =>
      simp only [listStartsWith, Bool.and_eq_true] at h ⊢
      exact ⟨h.1, ih lt h.2⟩

theorem listContainsSub_extend (p l r : List Char) (h : listContainsSub p l = true) :
    listContainsSub p (l ++ r) = true := by
  induction l with
  | nil =>
    cases p with
    | nil => cases r <;> simp [listContainsSub, listStartsWith]
    | cons ph pt => simp [listContainsSub, listStartsWith] at h
  | cons lh lt ih =>
    simp only [listContainsSub, Bool.or_eq_true, List.cons_append] at h ⊢
    rcases h with h | h
    · exact Or.inl (listStartsWith_extend _ _ _ h)
    · exact Or.inr (ih h)

theorem listContainsSub_append_right (p x y : List Char) (h : listContainsSub p y = true) :
    listContainsSub p (x ++ y) = true := by
  induction x with
  | nil => exact h
  | cons xh xt ih =>
    simp only [listContainsSub, Bool.or_eq_true, List.cons_append]
    exact Or.inr ih

theorem listContainsSub_self_append (p r : List Char) (hp : p ≠ []) :
    listContainsSub p (p ++ r) = true := by
  cases p with
  | nil => exact absurd rfl hp
  | cons h t =>
    simp only [listContainsSub, Bool.or_eq_true, List.cons_append]
    exact Or.inl (listStartsWith_append_self _ _)

theorem strToList_append (a b : String) : (a ++ b).toList = a.toList ++ b.toList := rfl

theorem strAppend_assoc (a b c : String) : a ++ b ++ c = a ++ (b ++ c) := by
  cases a with
  | mk la =>
    cases b with
    | mk lb =>
      cases c with
      | mk lc =>
        show String.mk (la ++ lb ++ lc) = String.mk (la ++ (lb ++ lc))
        rw [List.append_assoc]

theorem goContains_append_left (x y p : String) (h : goContains x p = true) :
    goContains (x ++ y) p = true := by
  unfold goContains at h ⊢
  rw [strToList_append]
  exact listContainsSub_extend _ _ _ h

theorem goContains_append_right (x y p : String) (h : goContains y p = true) :
    goContains (x ++ y) p = true := by
  unfold goContains at h ⊢
  rw [strToList_append]
  exact listContainsSub_append_right _ _ _ h

theorem goContains_self_append (p r : String) (hp : p ≠ "") :
    goContains (p ++ r) p = true := by
  unfold goContains
  rw [strToList_append]
  apply listContainsSub_self_append
  intro hc
  apply hp
  cases p with
  | mk lp => cases hc; rfl

theorem goHasSuf_append (a b : String) : goHasSuf (a ++ b) b = true := by
  unfold goHasSuf
  rw [strToList_append, List.reverse_append]
  exact listStartsWith_append_self _ _

theorem strAppend_empty (a : String) : a ++ "" = a := by
  cases a with
  | mk l =>
    show String.mk (l ++ []) = String.mk l
    rw [List.append_nil]

theorem strEmpty_append (a : String) : "" ++ a = a := by
  cases a with
  | mk l =>
    show String.mk ([] ++ l) = String.mk l
    rw [List.nil_append]

instance {ε α : Type} [DecidableEq ε] [DecidableEq α] : DecidableEq (Except ε α)
  | .error e, .error f =>
    if h : e = f then .isTrue (by rw [h]) else .isFalse (by intro hc; cases hc; exact h rfl)
  | .error _, .ok _ => .isFalse (by intro hc; cases hc)
  | .ok _, .error _ => .isFalse (by intro hc; cases hc)
  | .ok a, .ok b =>
    if h : a = b then .isTrue (by rw [h]) else .isFalse (by intro hc; cases hc; exact h rfl)

/-! ## Concrete fixtures for the claim theorems -/

/-- The table of `TestBuildDuplicateQuery` (duplicate_query_test.go). -/
def duplicateTestTable : Table :=
  { SearchPath := "public", Name := "test",
    Columns := [
      { Name := "id", PrimaryKey := true, Typ := .UUID, Default := "gen_random_uuid()" },
      { Name := "created_at", Typ := .Timestamp, Default := "clock_timestamp()" },
      { Name := "source_id", Typ := .UUID, ReferenceTableName := "test",
        ReferenceColumnName := "id" },
      { Name := "name", Typ := .BitVarying, TypeArgument := "255" } ] }

/-- A unique-flagged column on a table with no declared conflict action. -/
def uniqueEmailColumn : Column := { Name := "email", Typ := .Text, Unique := true }

/-- Two columns of the named unique-index group `uq_ab`. -/
def groupColumnA : Column := { Name := "a", Typ := .Text, UniqueIndex := "uq_ab" }

def groupColumnB : Column := { Name := "b", Typ := .Text, UniqueIndex := "uq_ab" }

def usersIdColumn : Column := { Name := "id", PrimaryKey := true, Typ := .UUID }

/-- A table with a primary key, a unique column and a named unique-index
group, but no per-column conflict action. -/
def usersTable : Table :=
  { Name := "users", Columns := [usersIdColumn, uniqueEmailColumn, groupColumnA, groupColumnB] }

/-- A strict table whose only column is unscannable. -/
def strictUnscanTable : Table :=
  { Name := "t", Strict := true,
    Columns := [ { Name := "v", Typ := .TsVector, Unscannable := true } ] }

/-- A struct field annotated with a character-varying type (length argument
255, as in the spec scenario `type=varchar(255),default=''`) and an arbitrary
default expression `d`; the column name `n` comes from the struct field. -/
def varcharDefaultField (n d : String) : StructField :=
  { FieldName := "X", columnName := n, goType := .InvalidDataType,
    Tag := "type=varchar(255),default=" ++ d }

/-- The annotation produced by rendering the parsed varchar column to its
non-strict tag form (name written out, length argument dropped). -/
def varcharRenderedField (n d : String) : StructField :=
  { FieldName := "X", columnName := n, goType := .InvalidDataType,
    Tag := "name=" ++ n ++ ",type=varchar,default=" ++ d }

/-! ## C1 — DUPLICATE builder -/

/-- C1: the DUPLICATE builder produces
`INSERT INTO table (cols) SELECT cols FROM table WHERE pk=$1`, replaces a
self-referencing foreign-key column by `COALESCE(col, pk)` in the SELECT
list, and appends `RETURNING pk` when a destination pointer is supplied —
but with a nil destination pointer it does NOT omit the RETURNING clause:
`writeInsertReturning` is called unconditionally and emits a dangling
` RETURNING ;`, contradicting the no-RETURNING output the builder's own
test (`duplicate_query_test.go`) expects. -/
theorem C1_duplicate_returning_bug :
    BuildDuplicateQuery duplicateTestTable true =
      .ok ("INSERT INTO \"public\".\"test\" (source_id,name) SELECT COALESCE(source_id, id),name FROM \"public\".\"test\" WHERE id = $1 RETURNING id;") ∧
    BuildDuplicateQuery duplicateTestTable false =
      .ok ("INSERT INTO \"public\".\"test\" (source_id,name) SELECT COALESCE(source_id, id),name FROM \"public\".\"test\" WHERE id = $1" ++
        writeInsertReturning "" ++ ";") ∧
    ("INSERT INTO \"public\".\"test\" (source_id,name) SELECT COALESCE(source_id, id),name FROM \"public\".\"test\" WHERE id = $1" ++
        writeInsertReturning "" ++ ";") ≠
      "INSERT INTO \"public\".\"test\" (source_id,name) SELECT COALESCE(source_id, id),name FROM \"public\".\"test\" WHERE id = $1;" := by
  decide

/-! ## C10 — annotation option order for `default=null` / `nullable=false` -/

/-- C10: options apply left to right and `nullable=false` is not symmetric
with `nullable=true`: `default=null,nullable=false` clears the default but
leaves `Nullable` true, while `nullable=false,default=null` yields default
`null` with `Nullable` true. -/
theorem C10_option_order_nullable :
    (convertStructFieldToColumnDefinion "t"
        { FieldName := "X", columnName := "x", goType := .Text,
          Tag := "default=null,nullable=false" }).map (fun c => (c.Default, c.Nullable)) =
      .ok ("", true) ∧
    (convertStructFieldToColumnDefinion "t"
        { FieldName := "X", columnName := "x", goType := .Text,
          Tag := "nullable=false,default=null" }).map (fun c => (c.Default, c.Nullable)) =
      .ok ("null", true) := by
  decide

/-! ## C3 — `unique` together with `unique_index` -/

theorem strMk_toList (s : String) : String.mk s.toList = s := by
  cases s
  rfl

theorem strMk_toList_append (a b : String) : String.mk (a.toList ++ b.toList) = a ++ b := by
  cases a
  cases b
  rfl

theorem splitChar_no_sep (sep : Char) (l : List Char) (h : ∀ c ∈ l, c ≠ sep) :
    splitChar sep l = [l] := by
  induction l with
  | nil => rfl
  | cons c t ih =>
    have hc : c ≠ sep := h c (List.mem_cons_self c t)
    have ht := ih (fun x hx => h x (List.mem_cons_of_mem c hx))
    simp [splitChar, hc, ht]

theorem splitChar_sep_append (sep : Char) (l1 l2 : List Char)
    (h1 : ∀ c ∈ l1, c ≠ sep) (h2 : ∀ c ∈ l2, c ≠ sep) :
    splitChar sep (l1 ++ sep :: l2) = [l1, l2] := by
  induction l1 with
  | nil =>
    simp [splitChar, splitChar_no_sep sep l2 h2]
  | cons c t ih =>
    have hc : c ≠ sep := h1 c (List.mem_cons_self c t)
    have ht := ih (fun x hx => h1 x (List.mem_cons_of_mem c hx))
    simp [splitChar, hc, ht]

/-- A field declaring `unique` before `unique_index`. -/
def uniqueFirstField (idxName : String) : StructField :=
  { FieldName := "X", columnName := "x", goType := .Text,
    Tag := "unique," ++ ("unique_index=" ++ idxName) }

/-- A field declaring `unique_index` before `unique`. -/
def uniqueLastField (idxName : String) : StructField :=
  { FieldName := "X", columnName := "x", goType := .Text,
    Tag := ("unique_index=" ++ idxName) ++ ",unique" }

/-- The column state the parser starts from for these fields. -/
def c3Init : Column := { TableName := "t", Name := "x", Typ := .Text, FieldName := "X" }

/-- C3 counterexample: an annotation carrying both options with
`unique_index` FIRST parses successfully (ending with both the unique flag
and the group name set) — the mutual-exclusion check in the `unique` case is
commented out in the source, so rejection is not order-independent, refuting
the claim. -/
theorem C3_counterexample :
    (convertStructFieldToColumnDefinion "t" (uniqueLastField "uq")).map
      (fun c => (c.Unique, c.UniqueIndex)) = .ok (true, "uq") := by
  decide

/-- C3 amended: the combination is rejected only when `unique` appears
before `unique_index` (the `unique_index` case errors if the unique flag is
already set); with `unique_index` first, parsing succeeds and leaves both
set. -/
theorem C3_unique_index_order (idxName : String) (hno : goContainsChar idxName ',' = false) :
    convertStructFieldToColumnDefinion "t" (uniqueFirstField idxName) =
      .error "unqiue and unique_index cannot be used together" ∧
    (convertStructFieldToColumnDefinion "t" (uniqueLastField idxName)).map
      (fun c => (c.Unique, c.UniqueIndex)) = .ok (true, idxName) := by
  have hmem : ∀ c ∈ idxName.toList, c ≠ ',' := by
    intro c hc he
    subst he
    simp [goContainsChar] at hno
    exact hno hc
  have hground : ∀ c ∈ "unique_index=".toList, c ≠ ',' := by decide
  have hboth : ∀ c ∈ "unique_index=".toList ++ idxName.toList, c ≠ ',' := by
    intro c hc
    rcases List.mem_append.mp hc with hc | hc
    · exact hground c hc
    · exact hmem c hc
  have hne : ("unique_index=" ++ idxName) ≠ "" := by
    intro h
    have h2 := congrArg String.toList h
    rw [strToList_append] at h2
    simp at h2
  have hsn : goSplitN2 ("unique_index=" ++ idxName) '=' = ("unique_index", some idxName) := rfl
  have hsplitA : goSplit ("unique," ++ ("unique_index=" ++ idxName)) ',' =
      ["unique", "unique_index=" ++ idxName] := by
    unfold goSplit
    have heq : ("unique," ++ ("unique_index=" ++ idxName)).toList =
        "unique".toList ++ ',' :: ("unique_index=".toList ++ idxName.toList) := rfl
    rw [heq, splitChar_sep_append ',' _ _ (by decide) hboth]
    simp only [List.map_cons, List.map_nil, strMk_toList, strMk_toList_append]
  have hsplitB : goSplit (("unique_index=" ++ idxName) ++ ",unique") ',' =
      ["unique_index=" ++ idxName, "unique"] := by
    unfold goSplit
    have heq : (("unique_index=" ++ idxName) ++ ",unique").toList =
        ("unique_index=".toList ++ idxName.toList) ++ ',' :: "unique".toList := by
      rw [strToList_append, strToList_append]
      rfl
    rw [heq, splitChar_sep_append ',' _ _ hboth (by decide)]
    simp only [List.map_cons, List.map_nil, strMk_toList, strMk_toList_append]
  have hoptErr : applyTagOption "t" (uniqueFirstField idxName) { c3Init with Unique := true }
      ("unique_index=" ++ idxName) =
      .error "unqiue and unique_index cannot be used together" := by
    unfold applyTagOption
    rw [if_neg hne, hsn]
    rfl
  have hoptOk : applyTagOption "t" (uniqueLastField idxName) c3Init
      ("unique_index=" ++ idxName) = .ok { c3Init with UniqueIndex := idxName } := by
    unfold applyTagOption
    rw [if_neg hne, hsn]
    rfl
  have hA0 : applyTagOption "t" (uniqueFirstField idxName) c3Init "unique" = .ok { c3Init with Unique := true } := rfl
  have hB1 : applyTagOption "t" (uniqueLastField idxName) { c3Init with UniqueIndex := idxName } "unique" = .ok { c3Init with UniqueIndex := idxName, Unique := true } := rfl
  constructor
  · unfold convertStructFieldToColumnDefinion
    rw [show (uniqueFirstField idxName).Tag = "unique," ++ ("unique_index=" ++ idxName) from rfl,
      hsplitA]
    simp only [applyTagOptions]
    rw [show ({ TableName := "t", Name := (uniqueFirstField idxName).columnName, Typ := (uniqueFirstField idxName).goType, FieldName := (uniqueFirstField idxName).FieldName } : Column) = c3Init from rfl]
    rw [hA0]
    simp only [applyTagOptions]
    rw [hoptErr]
  · unfold convertStructFieldToColumnDefinion
    rw [show (uniqueLastField idxName).Tag = ("unique_index=" ++ idxName) ++ ",unique" from rfl,
      hsplitB]
    simp only [applyTagOptions]
    rw [show ({ TableName := "t", Name := (uniqueLastField idxName).columnName, Typ := (uniqueLastField idxName).goType, FieldName := (uniqueLastField idxName).FieldName } : Column) = c3Init from rfl]
    rw [hoptOk]
    simp only [applyTagOptions]
    rw [hB1]
    rfl

/-- C3 witness: the amended theorem applied to the group name `uq`. -/
theorem C3_unique_index_order_witness :
    convertStructFieldToColumnDefinion "t" (uniqueFirstField "uq") =
      .error "unqiue and unique_index cannot be used together" :=
  (C3_unique_index_order "uq" (by decide)).1

/-! ## C9 — character-varying cast suffix on parsed defaults -/

theorem strExt (a b : String) (h : a.toList = b.toList) : a = b := by
  cases a
  cases b
  cases h
  rfl

theorem splitOnceChar_sep (sep : Char) (l1 l2 : List Char) (h1 : ∀ c ∈ l1, c ≠ sep) :
    splitOnceChar sep (l1 ++ sep :: l2) = (l1, some l2) := by
  induction l1 with
  | nil => simp [splitOnceChar]
  | cons c t ih =>
    have hc : c ≠ sep := h1 c (List.mem_cons_self c t)
    have ht := ih (fun x hx => h1 x (List.mem_cons_of_mem c hx))
    simp [splitOnceChar, hc, ht]

theorem goSplitN2_name (n : String) : goSplitN2 ("name=" ++ n) '=' = ("name", some n) := by
  unfold goSplitN2
  have heq : ("name=" ++ n).toList = "name".toList ++ '=' :: n.toList := rfl
  rw [heq, splitOnceChar_sep '=' _ _ (by decide)]
  simp [strMk_toList]

theorem goSplitN2_default (d : String) :
    goSplitN2 ("default=" ++ d) '=' = ("default", some d) := by
  unfold goSplitN2
  have heq : ("default=" ++ d).toList = "default".toList ++ '=' :: d.toList := rfl
  rw [heq, splitOnceChar_sep '=' _ _ (by decide)]
  simp [strMk_toList]

theorem splitChar_sep_cons (sep : Char) (l1 rest : List Char) (h1 : ∀ c ∈ l1, c ≠ sep) :
    splitChar sep (l1 ++ sep :: rest) = l1 :: splitChar sep rest := by
  induction l1 with
  | nil => simp [splitChar]
  | cons c t ih =>
    have hc : c ≠ sep := h1 c (List.mem_cons_self c t)
    have ht := ih (fun x hx => h1 x (List.mem_cons_of_mem c hx))
    simp [splitChar, hc, ht]

theorem sprintf1_name_fmt (v : String) : sprintf1 "name=%s".toList v = "name=" ++ v := by
  have h : sprintf1 "name=%s".toList v = "name=" ++ (v ++ "") := rfl
  rw [h, strAppend_empty]

theorem sprintf1_default_fmt (v : String) :
    sprintf1 ",default=%s".toList v = ",default=" ++ v := by
  have h : sprintf1 ",default=%s".toList v = ",default=" ++ (v ++ "") := rfl
  rw [h, strAppend_empty]

theorem listStartsWith_long (p l1 l2 : List Char) (h : p.length ≤ l1.length) :
    listStartsWith p (l1 ++ l2) = listStartsWith p l1 := by
  induction p generalizing l1 with
  | nil => simp [listStartsWith]
  | cons c ps ih =>
    cases l1 with
    | nil => exact absurd h (by simp)
    | cons x t =>
      simp only [List.cons_append, listStartsWith]
      have h2 : ps.length ≤ t.length := by
        simp only [List.length_cons] at h
        omega
      show (decide (c = x) && listStartsWith ps (t ++ l2)) =
        (decide (c = x) && listStartsWith ps t)
      rw [ih t h2]

theorem goHasSuf_append_long (a b pat : String) (h : pat.toList.length ≤ b.toList.length) :
    goHasSuf (a ++ b) pat = goHasSuf b pat := by
  unfold goHasSuf
  rw [strToList_append, List.reverse_append]
  exact listStartsWith_long _ _ _ (by simpa using h)

theorem goTrimSuf_append (a b : String) : goTrimSuf (a ++ b) b = a := by
  unfold goTrimSuf
  rw [if_pos (goHasSuf_append a b)]
  rw [strToList_append, List.length_append, Nat.add_sub_cancel, List.take_left, strMk_toList]

theorem goToLower_append (a b : String) : goToLower (a ++ b) = goToLower a ++ goToLower b := by
  unfold goToLower
  rw [strToList_append, List.map_append]
  exact strMk_toList_append (String.mk (a.toList.map Char.toLower))
    (String.mk (b.toList.map Char.toLower))

theorem goToLower_castText : goToLower characterVaryingCastText = characterVaryingCastText := by
  decide

/-- The tail of `convertStructFieldToColumnDefinion` after the tag options
ran: the invalid-type check followed by the character-varying cast-suffix
step, for a column whose lowered default does not yet carry the suffix. -/
theorem convert_post_varchar (w : Column) (e : String)
    (hT : w.Typ = DataType.CharacterVarying) (hD : w.Default ≠ "")
    (hs : goHasSuf (goToLower w.Default) characterVaryingCastText = false) :
    (if w.Typ = DataType.InvalidDataType then (Except.error e : Except String Column)
     else .ok (if w.Typ = DataType.CharacterVarying then
         if w.Default ≠ "" then
           if !goHasSuf (goToLower w.Default) characterVaryingCastText then
             { w with Default := w.Default ++ characterVaryingCastText }
           else w
         else w
       else w)) = .ok { w with Default := w.Default ++ characterVaryingCastText } := by
  rw [if_neg (by simp [hT]), if_pos hT, if_pos hD, if_pos (by simp [hs])]

/-- Every column the annotation parser returns with a character-varying type
and a non-empty default ends (case-insensitively) in the cast suffix. -/
theorem convert_ok_cast_suffix (t : String) (f : StructField) (c : Column)
    (hok : convertStructFieldToColumnDefinion t f = .ok c)
    (hT : c.Typ = DataType.CharacterVarying) (hD : c.Default ≠ "") :
    goHasSuf (goToLower c.Default) characterVaryingCastText = true := by
  have key : ∀ (w : Column) (e : String),
      (if w.Typ = DataType.InvalidDataType then (Except.error e : Except String Column)
       else .ok (if w.Typ = DataType.CharacterVarying then
           if w.Default ≠ "" then
             if !goHasSuf (goToLower w.Default) characterVaryingCastText then
               { w with Default := w.Default ++ characterVaryingCastText }
             else w
           else w
         else w)) = .ok c →
      goHasSuf (goToLower c.Default) characterVaryingCastText = true := by
    intro w e hw
    split at hw
    · exact absurd hw (by simp)
    · rw [Except.ok.injEq] at hw
      by_cases h1 : w.Typ = DataType.CharacterVarying
      · rw [if_pos h1] at hw
        by_cases h2 : w.Default ≠ ""
        · rw [if_pos h2] at hw
          cases hcase : goHasSuf (goToLower w.Default) characterVaryingCastText with
          | true =>
            rw [if_neg (by simp [hcase])] at hw
            rw [← hw]
            exact hcase
          | false =>
            rw [if_pos (by simp [hcase])] at hw
            rw [← hw]
            show goHasSuf (goToLower (w.Default ++ characterVaryingCastText))
              characterVaryingCastText = true
            rw [goToLower_append, goToLower_castText]
            exact goHasSuf_append _ _
        · rw [if_neg h2] at hw
          rw [← hw] at hD
          exact absurd hD h2
      · rw [if_neg h1] at hw
        rw [← hw] at hT
        exact absurd hT h1
  unfold convertStructFieldToColumnDefinion at hok
  dsimp only at hok
  split at hok
  · exact absurd hok (by simp)
  · exact key _ _ hok

/-- Parsing `type=varchar(255),default=d` yields the column with the cast
suffix appended to `d`. -/
theorem convert_varcharDefault (tableName n d : String)
    (hd : goContainsChar d ',' = false) (hd0 : d ≠ "") (hdn : d ≠ "null")
    (hds : goHasSuf (goToLower d) characterVaryingCastText = false) :
    convertStructFieldToColumnDefinion tableName (varcharDefaultField n d) =
      .ok { TableName := tableName, Name := n, Typ := DataType.CharacterVarying,
            TypeArgument := "255", FieldName := "X",
            Default := d ++ characterVaryingCastText } := by
  have hmem : ∀ c ∈ d.toList, c ≠ ',' := by
    intro c hc he
    subst he
    simp [goContainsChar] at hd
    exact hd hc
  have hboth : ∀ c ∈ "default=".toList ++ d.toList, c ≠ ',' := by
    intro c hc
    rcases List.mem_append.mp hc with hc | hc
    · exact (by decide : ∀ x ∈ "default=".toList, x ≠ ',') c hc
    · exact hmem c hc
  have hsplit : goSplit ("type=varchar(255),default=" ++ d) ',' =
      ["type=varchar(255)", "default=" ++ d] := by
    unfold goSplit
    have heq : ("type=varchar(255),default=" ++ d).toList =
        "type=varchar(255)".toList ++ ',' :: ("default=".toList ++ d.toList) := rfl
    rw [heq, splitChar_sep_append ',' _ _ (by decide) hboth]
    simp only [List.map_cons, List.map_nil, strMk_toList, strMk_toList_append]
  have hne2 : ("default=" ++ d) ≠ "" := by
    intro h
    have h2 := congrArg String.toList h
    rw [strToList_append] at h2
    simp at h2
  have hopt1 : applyTagOption tableName (varcharDefaultField n d)
      { TableName := tableName, Name := n, Typ := DataType.InvalidDataType, FieldName := "X" }
      "type=varchar(255)" =
      .ok { TableName := tableName, Name := n, Typ := DataType.CharacterVarying,
            TypeArgument := "255", FieldName := "X" } := rfl
  have hopt2 : applyTagOption tableName (varcharDefaultField n d)
      { TableName := tableName, Name := n, Typ := DataType.CharacterVarying,
        TypeArgument := "255", FieldName := "X" }
      ("default=" ++ d) =
      .ok { TableName := tableName, Name := n, Typ := DataType.CharacterVarying,
            TypeArgument := "255", FieldName := "X", Default := d } := by
    unfold applyTagOption
    rw [if_neg hne2, goSplitN2_default]
    show (if d = "null" then (Except.ok { TableName := tableName, Name := n, Typ := DataType.CharacterVarying, TypeArgument := "255", FieldName := "X", Default := d, Nullable := true } : Except String Column) else (Except.ok { TableName := tableName, Name := n, Typ := DataType.CharacterVarying, TypeArgument := "255", FieldName := "X", Default := d } : Except String Column)) = (Except.ok { TableName := tableName, Name := n, Typ := DataType.CharacterVarying, TypeArgument := "255", FieldName := "X", Default := d } : Except String Column)
    rw [if_neg hdn]
  unfold convertStructFieldToColumnDefinion
  rw [show (varcharDefaultField n d).Tag = "type=varchar(255),default=" ++ d from rfl, hsplit]
  simp only [applyTagOptions]
  rw [show ({ TableName := tableName, Name := (varcharDefaultField n d).columnName, Typ := (varcharDefaultField n d).goType, FieldName := (varcharDefaultField n d).FieldName } : Column) = { TableName := tableName, Name := n, Typ := DataType.InvalidDataType, FieldName := "X" } from rfl]
  rw [hopt1]
  simp only [applyTagOptions]
  rw [hopt2]
  simp only [applyTagOptions]
  exact convert_post_varchar _ _ rfl hd0 hds

/-- Parsing the rendered annotation `name=n,type=varchar,default=d` yields
the same default with the cast suffix appended once more. -/
theorem convert_varcharRendered (tableName n d : String)
    (hn : goContainsChar n ',' = false)
    (hd : goContainsChar d ',' = false) (hd0 : d ≠ "") (hdn : d ≠ "null")
    (hds : goHasSuf (goToLower d) characterVaryingCastText = false) :
    convertStructFieldToColumnDefinion tableName (varcharRenderedField n d) =
      .ok { TableName := tableName, Name := n, Typ := DataType.CharacterVarying,
            FieldName := "X", Default := d ++ characterVaryingCastText } := by
  have hmemn : ∀ c ∈ n.toList, c ≠ ',' := by
    intro c hc he
    subst he
    simp [goContainsChar] at hn
    exact hn hc
  have hmemd : ∀ c ∈ d.toList, c ≠ ',' := by
    intro c hc he
    subst he
    simp [goContainsChar] at hd
    exact hd hc
  have hA : ∀ c ∈ "name=".toList ++ n.toList, c ≠ ',' := by
    intro c hc
    rcases List.mem_append.mp hc with hc | hc
    · exact (by decide : ∀ x ∈ "name=".toList, x ≠ ',') c hc
    · exact hmemn c hc
  have hboth : ∀ c ∈ "default=".toList ++ d.toList, c ≠ ',' := by
    intro c hc
    rcases List.mem_append.mp hc with hc | hc
    · exact (by decide : ∀ x ∈ "default=".toList, x ≠ ',') c hc
    · exact hmemd c hc
  have heq : ("name=" ++ n ++ ",type=varchar,default=" ++ d).toList =
      ("name=".toList ++ n.toList) ++
        ',' :: ("type=varchar".toList ++ ',' :: ("default=".toList ++ d.toList)) := by
    rw [strToList_append, strToList_append, strToList_append, List.append_assoc]
    rfl
  have hsplit : goSplit ("name=" ++ n ++ ",type=varchar,default=" ++ d) ',' =
      ["name=" ++ n, "type=varchar", "default=" ++ d] := by
    unfold goSplit
    rw [heq, splitChar_sep_cons ',' _ _ hA,
      splitChar_sep_append ',' _ _ (by decide) hboth]
    simp only [List.map_cons, List.map_nil, strMk_toList, strMk_toList_append]
  have hneN : ("name=" ++ n) ≠ "" := by
    intro h
    have h2 := congrArg String.toList h
    rw [strToList_append] at h2
    simp at h2
  have hne2 : ("default=" ++ d) ≠ "" := by
    intro h
    have h2 := congrArg String.toList h
    rw [strToList_append] at h2
    simp at h2
  have hopt0 : applyTagOption tableName (varcharRenderedField n d)
      { TableName := tableName, Name := n, Typ := DataType.InvalidDataType, FieldName := "X" }
      ("name=" ++ n) =
      .ok { TableName := tableName, Name := n, Typ := DataType.InvalidDataType,
            FieldName := "X" } := by
    unfold applyTagOption
    rw [if_neg hneN, goSplitN2_name]
    rfl
  have hopt1 : applyTagOption tableName (varcharRenderedField n d)
      { TableName := tableName, Name := n, Typ := DataType.InvalidDataType, FieldName := "X" }
      "type=varchar" =
      .ok { TableName := tableName, Name := n, Typ := DataType.CharacterVarying,
            FieldName := "X" } := rfl
  have hopt2 : applyTagOption tableName (varcharRenderedField n d)
      { TableName := tableName, Name := n, Typ := DataType.CharacterVarying,
        FieldName := "X" }
      ("default=" ++ d) =
      .ok { TableName := tableName, Name := n, Typ := DataType.CharacterVarying,
            FieldName := "X", Default := d } := by
    unfold applyTagOption
    rw [if_neg hne2, goSplitN2_default]
    show (if d = "null" then (Except.ok { TableName := tableName, Name := n, Typ := DataType.CharacterVarying, FieldName := "X", Default := d, Nullable := true } : Except String Column) else (Except.ok { TableName := tableName, Name := n, Typ := DataType.CharacterVarying, FieldName := "X", Default := d } : Except String Column)) = (Except.ok { TableName := tableName, Name := n, Typ := DataType.CharacterVarying, FieldName := "X", Default := d } : Except String Column)
    rw [if_neg hdn]
  unfold convertStructFieldToColumnDefinion
  rw [show (varcharRenderedField n d).Tag = "name=" ++ n ++ ",type=varchar,default=" ++ d from rfl, hsplit]
  simp only [applyTagOptions]
  rw [show ({ TableName := tableName, Name := (varcharRenderedField n d).columnName, Typ := (varcharRenderedField n d).goType, FieldName := (varcharRenderedField n d).FieldName } : Column) = { TableName := tableName, Name := n, Typ := DataType.InvalidDataType, FieldName := "X" } from rfl]
  rw [hopt0]
  simp only [applyTagOptions]
  rw [hopt1]
  simp only [applyTagOptions]
  rw [hopt2]
  simp only [applyTagOptions]
  exact convert_post_varchar _ _ rfl hd0 hds

/-- Rendering the parsed varchar column to its non-strict tag form trims the
cast suffix back off the default. -/
theorem fieldTag_varchar (tableName n d : String) (hn0 : n ≠ "") (hd0 : d ≠ "") :
    Column.FieldTagString
      { TableName := tableName, Name := n, Typ := DataType.CharacterVarying,
        TypeArgument := "255", FieldName := "X",
        Default := d ++ characterVaryingCastText } false =
      DefaultTag ++ ":\"name=" ++ n ++ ",type=varchar,default=" ++ d ++ "\"" := by
  have hw1 : writeTagProp "name=%s" (.vstr n) = "name=" ++ n := by
    have h0 : writeTagProp "name=%s" (.vstr n) =
        if TagVal.isZero (.vstr n) = true then "" else sprintf1 "name=%s".toList n := rfl
    rw [h0, if_neg (by simp [TagVal.isZero, hn0])]
    exact sprintf1_name_fmt n
  have hw2 : writeTagProp ",default=%s" (.vstr d) = ",default=" ++ d := by
    have h0 : writeTagProp ",default=%s" (.vstr d) =
        if TagVal.isZero (.vstr d) = true then "" else sprintf1 ",default=%s".toList d := rfl
    rw [h0, if_neg (by simp [TagVal.isZero, hd0])]
    exact sprintf1_default_fmt d
  have htrim1 : goTrimSuf (d ++ characterVaryingCastText) "::varchar" =
      d ++ characterVaryingCastText := by
    unfold goTrimSuf
    rw [goHasSuf_append_long d characterVaryingCastText "::varchar" (by decide)]
    rw [if_neg (by decide)]
  have htrim : (dataTypeAliases DataType.CharacterVarying).foldl
      (fun d name => goTrimSuf d ("::" ++ name)) (d ++ characterVaryingCastText) = d := by
    show goTrimSuf (goTrimSuf (d ++ characterVaryingCastText) ("::" ++ "varchar"))
        ("::" ++ "character varying") = d
    rw [show (("::" : String) ++ "varchar") = "::varchar" from rfl,
      show (("::" : String) ++ "character varying") = characterVaryingCastText from rfl,
      htrim1]
    exact goTrimSuf_append d characterVaryingCastText
  have hmain : Column.FieldTagString
      { TableName := tableName, Name := n, Typ := DataType.CharacterVarying,
        TypeArgument := "255", FieldName := "X",
        Default := d ++ characterVaryingCastText } false =
      DefaultTag ++ ":\"" ++ writeTagProp "name=%s" (.vstr n) ++ ",type=varchar" ++ "" ++ "" ++
        writeTagProp ",default=%s" (.vstr ((dataTypeAliases DataType.CharacterVarying).foldl
          (fun d name => goTrimSuf d ("::" ++ name)) (d ++ characterVaryingCastText))) ++
        "" ++ "" ++ "" ++ "" ++ "\"" := rfl
  rw [hmain, hw1, htrim, hw2]
  simp only [strAppend_empty, strEmpty_append, strAppend_assoc]
  rfl

/-- C9: every column the annotation parser accepts with a character-varying
type and a non-empty default stores the default with the
`::character varying` cast suffix (first conjunct, universal over all
struct fields and table names); and for every column name `n` and every
comma-free default expression `d` (non-empty, not `null`, not already
suffixed), parsing `type=varchar(255),default=d` stores `d ++ suffix`,
rendering that column to its non-strict tag form prints
`name=n,type=varchar,default=d` (the suffix trimmed back off, the length
argument dropped), re-parsing the rendered annotation yields the same
default `d ++ suffix`, and trimming the one suffix recovers `d` exactly —
the suffix is never duplicated. -/
theorem C9_varchar_cast_universal
    (tableName n d : String)
    (hn : goContainsChar n ',' = false) (hn0 : n ≠ "")
    (hd : goContainsChar d ',' = false) (hd0 : d ≠ "") (hdn : d ≠ "null")
    (hds : goHasSuf (goToLower d) characterVaryingCastText = false) :
    (∀ (t2 : String) (f : StructField) (c : Column),
        convertStructFieldToColumnDefinion t2 f = .ok c →
        c.Typ = DataType.CharacterVarying → c.Default ≠ "" →
        goHasSuf (goToLower c.Default) characterVaryingCastText = true) ∧
    (convertStructFieldToColumnDefinion tableName (varcharDefaultField n d)).map
        (fun c => c.Default) = .ok (d ++ characterVaryingCastText) ∧
    (convertStructFieldToColumnDefinion tableName (varcharDefaultField n d)).map
        (fun c => c.FieldTagString false) =
      .ok (DefaultTag ++ ":\"name=" ++ n ++ ",type=varchar,default=" ++ d ++ "\"") ∧
    (convertStructFieldToColumnDefinion tableName (varcharRenderedField n d)).map
        (fun c => c.Default) = .ok (d ++ characterVaryingCastText) ∧
    goTrimSuf (d ++ characterVaryingCastText) characterVaryingCastText = d := by
  refine ⟨fun t2 f c hok hT hD => convert_ok_cast_suffix t2 f c hok hT hD, ?_, ?_, ?_,
    goTrimSuf_append d characterVaryingCastText⟩
  · rw [convert_varcharDefault tableName n d hd hd0 hdn hds]
    rfl
  · rw [convert_varcharDefault tableName n d hd hd0 hdn hds]
    show Except.ok (Column.FieldTagString { TableName := tableName, Name := n, Typ := DataType.CharacterVarying, TypeArgument := "255", FieldName := "X", Default := d ++ characterVaryingCastText } false) = Except.ok (DefaultTag ++ ":\"name=" ++ n ++ ",type=varchar,default=" ++ d ++ "\"")
    rw [fieldTag_varchar tableName n d hn0 hd0]
  · rw [convert_varcharRendered tableName n d hn hd hd0 hdn hds]
    rfl

/-- C9 witness: the universal theorem applied to the spec scenario
`type=varchar(255),default=''` (name `name`, default two single quotes). -/
theorem C9_varchar_cast_universal_witness :
    (convertStructFieldToColumnDefinion "test" (varcharDefaultField "name" (sq ++ sq))).map
      (fun c => c.Default) = .ok ((sq ++ sq) ++ characterVaryingCastText) :=
  (C9_varchar_cast_universal "test" "name" (sq ++ sq) (by decide) (by decide) (by decide)
    (by decide) (by decide) (by decide)).2.1

/-! ## C2 — malformed constraint-definition text -/

/-- C2 counterexample: a malformed CHECK definition does yield a nil payload,
but merging that constraint into a Column does NOT complete without a hard
failure — `BuildColumn` dereferences the nil `Check` payload (a Go panic,
modelled as `none`), refuting the claim at this input. -/
theorem C2_counterexample :
    (Constraint.Build
        { constraintType := .CheckConstraintType, TableName := "blog_posts", ColumnName := "read_time_minutes" }
        "CHEK ((read_time_minutes > 0))").Check = none ∧
    (Constraint.Build
        { constraintType := .CheckConstraintType, TableName := "blog_posts", ColumnName := "read_time_minutes" }
        "CHEK ((read_time_minutes > 0))").BuildColumn {} = none := by
  decide

/-- C2 amended: for CHECK and FOREIGN KEY constraints the decoder stores the
(possibly nil) parse result, and merging a nil payload into a Column
dereferences it — a hard failure (Go panic) — rather than completing; only
malformed UNIQUE and index constraint text merges without failure, a
malformed index leaving the column's index-type field unset. -/
theorem C2_nil_payload_merge (c : Constraint) (s : String) (col : Column) :
    (c.constraintType = ConstraintType.CheckConstraintType →
      (c.Build s).Check = parseCheckConstraint s ∧
      (parseCheckConstraint s = none → (c.Build s).BuildColumn col = none)) ∧
    (c.constraintType = ConstraintType.ForeignKeyConstraintType →
      (c.Build s).ForeignKey = parseForeignKeyConstraint s ∧
      (parseForeignKeyConstraint s = none → (c.Build s).BuildColumn col = none)) ∧
    (c.constraintType = ConstraintType.UniqueConstraintType →
      ((c.Build s).BuildColumn col).isSome = true) ∧
    (c.constraintType = ConstraintType.IndexConstraintType →
      parseSimpleIndexConstraint s = ("", "", "", IndexType.InvalidIndex) →
      (c.Build s).BuildColumn col = some { col with Index := IndexType.InvalidIndex }) := by
  refine ⟨fun ht => ?_, fun ht => ?_, fun ht => ?_, fun ht hp => ?_⟩
  · refine ⟨by simp [Constraint.Build, ht], fun hp => ?_⟩
    simp [Constraint.Build, Constraint.BuildColumn, ht, hp]
  · refine ⟨by simp [Constraint.Build, ht], fun hp => ?_⟩
    simp [Constraint.Build, Constraint.BuildColumn, ht, hp]
  · simp only [Constraint.Build, ht, Constraint.BuildColumn]
    split <;> split <;> simp
  · simp only [Constraint.Build, ht, hp, Constraint.BuildColumn]
    split <;> rfl

/-- C2 witness: the amended theorem applied to a malformed FOREIGN KEY
definition. -/
theorem C2_nil_payload_merge_witness :
    (Constraint.Build { constraintType := .ForeignKeyConstraintType }
        "FOREIGN KEY garbage").BuildColumn {} = none :=
  ((C2_nil_payload_merge { constraintType := .ForeignKeyConstraintType }
      "FOREIGN KEY garbage" {}).2.1 rfl).2 (by decide)

/-! ## C5 — unscannable columns and strict tables in the row scanner -/

/-- C5 counterexample: a returned field matching an unscannable column DOES
cause an error when the table is strict — the nil scan target hits the
strict check instead of being bound to a no-op sink, refuting the claim. -/
theorem C5_counterexample :
    ConvertRowsToStructTargets strictUnscanTable ["v"] =
      .error ("struct doesn" ++ sq ++ "t have corresponding row field: v (strict check)") := by
  decide

/-- C5 amended: a field matching an unscannable column gets a nil scan
target, exactly like a field matching no column at all; a non-strict table
binds every nil target to a no-op sink and never errors, while a strict
table errors exactly when some returned field has a nil target (no column
or unscannable column). -/
theorem C5_scan_targets (td : Table) (fields : List String) :
    (td.Strict = false →
      ConvertRowsToStructTargets td fields =
        .ok (fields.map (fun f => (scanTargetFor td f).getD .noOp))) ∧
    (td.Strict = true →
      ((ConvertRowsToStructTargets td fields).isOk = true ↔
        ∀ f ∈ fields, (scanTargetFor td f).isSome = true)) ∧
    (∀ f col, td.GetColumnByName f = some col → col.Unscannable = true →
      scanTargetFor td f = none) := by
  refine ⟨fun hs => ?_, fun hs => ?_, fun f col hcol hun => ?_⟩
  · unfold ConvertRowsToStructTargets
    rw [hs]
    induction fields with
    | nil => rfl
    | cons f rest ih =>
      simp only [List.map_cons, fillScanTargets]
      cases h : scanTargetFor td f with
      | none => simp [fillScanTargets, ih, h]
      | some t => simp [fillScanTargets, ih, h]
  · unfold ConvertRowsToStructTargets
    rw [hs]
    induction fields with
    | nil => simp [fillScanTargets, Except.isOk, Except.toBool]
    | cons f rest ih =>
      simp only [List.map_cons, fillScanTargets]
      cases h : scanTargetFor td f with
      | none =>
        simp only [fillScanTargets, if_pos rfl]
        constructor
        · intro hok
          simp [Except.isOk, Except.toBool] at hok
        · intro hall
          have := hall f (List.mem_cons_self f rest)
          simp [h] at this
      | some t =>
        simp only [fillScanTargets]
        constructor
        · intro hok
          intro g hg
          rcases List.mem_cons.mp hg with hg | hg
          · subst hg; simp [h]
          · revert hok
            cases hr : fillScanTargets true (rest.map fun f => (f, scanTargetFor td f)) with
            | error e => intro hok; simp [Except.isOk, Except.toBool] at hok
            | ok ts =>
              intro _
              have := ih.mp (by simp [hr, Except.isOk, Except.toBool])
              exact this g hg
        · intro hall
          have hrest := ih.mpr (fun g hg => hall g (List.mem_cons_of_mem f hg))
          revert hrest
          cases hr : fillScanTargets true (rest.map fun f => (f, scanTargetFor td f)) with
          | error e => intro hrest; simp [Except.isOk, Except.toBool] at hrest
          | ok ts => intro _; simp [Except.isOk, Except.toBool]
  · unfold scanTargetFor
    rw [hcol]
    simp [hun]

/-- C5 witness: the amended theorem applied to a non-strict table with an
unscannable column and an unmatched field. -/
theorem C5_scan_targets_witness :
    ConvertRowsToStructTargets { strictUnscanTable with Strict := false } ["v", "w"] =
      .ok [.noOp, .noOp] := by
  have h := (C5_scan_targets { strictUnscanTable with Strict := false } ["v", "w"]).1 rfl
  rw [h]
  decide

/-! ## C4 — schema reconciliation and description back-fill -/

/-- C4 counterexample: after a successful match, a missing description is
NOT back-filled in both directions — here the live column's description is
empty and the code column's is set, and the body leaves the live column
unchanged (the source never writes to `col`), refuting the claim's
"live model from code" direction. -/
theorem C4_counterexample :
    checkSchemaColumnPair "t" ({ Name := "a", Typ := .Text } : Column)
        ({ Name := "a", Typ := .Text, Description := "code." } : Column) =
      .ok ({ Name := "a", Typ := .Text },
        { Name := "a", Typ := .Text, Description := "code." }) ∧
    ({ Name := "a", Typ := .Text } : Column).Description ≠
      ({ Name := "a", Typ := .Text, Description := "code." } : Column).Description := by
  decide

/-- C4 amended: descriptions never enter the rendered tag, so columns whose
rendered non-strict tags agree case-insensitively (in particular columns
differing only in description) produce no mismatch; on such a match the
back-fill is one-directional: the code column's missing description is
filled from the live catalog column, and the live column is returned
unchanged. -/
theorem C4_description_backfill (tableName : String) (col column : Column)
    (h : goToLower (col.FieldTagString false) = goToLower (column.FieldTagString false)) :
    (∀ d, Column.FieldTagString { col with Description := d } false =
      col.FieldTagString false) ∧
    checkSchemaColumnPair tableName col column =
      .ok (col,
        if column.Description = "" then { column with Description := col.Description }
        else column) := by
  refine ⟨fun d => rfl, ?_⟩
  unfold checkSchemaColumnPair
  simp [h]

/-- C4 witness: the amended theorem applied to a live column carrying a
description and an otherwise-identical code column without one. -/
theorem C4_description_backfill_witness :
    checkSchemaColumnPair "t" ({ Name := "a", Typ := .Text, Description := "live." } : Column)
        ({ Name := "a", Typ := .Text } : Column) =
      .ok ({ Name := "a", Typ := .Text, Description := "live." },
        { Name := "a", Typ := .Text, Description := "live." }) := by
  have h := (C4_description_backfill "t"
    { Name := "a", Typ := .Text, Description := "live." }
    { Name := "a", Typ := .Text } (by decide)).2
  rw [h]
  decide

/-! ## C6 — forced ON CONFLICT target resolution -/

/-- C6 counterexample: forcing the conflict target to the name of a column
known to be unique does NOT make that column the target when the table
declares no per-column conflict action — the builder errors instead,
refuting the claim's second resolution step. -/
theorem C6_counterexample :
    buildInsertQuery usersTable [{ Column := uniqueEmailColumn }] "id" "email" false =
      .error ("can" ++ sq ++ "t find unique index with name: email") := by
  decide

/-- C6 amended: a forced conflict target is resolved first against the named
unique-index groups (rewriting ON CONFLICT to exactly that group's column
list in declared column order); otherwise against the accumulated candidate
conflict columns — the unique-flagged inserted columns when the table
declares a conflict action, the unique-index member columns otherwise; a
candidate match yields that single column, a failed match falls back to the
whole candidate list, and the builder errors only when there are no
candidates at all. -/
theorem C6_forced_conflict_resolution (td : Table) (args : List Argument)
    (returningColumn forceOnConflictExpr : String) (upsert : Bool)
    (hforce : forceOnConflictExpr ≠ "") :
    (∀ cols, td.UniqueIndexLookup forceOnConflictExpr = some cols →
      cols = (td.Columns.filter
          (fun c => c.UniqueIndex = forceOnConflictExpr && c.UniqueIndex ≠ "")).map
            (fun c => c.Name) ∧
      resolveOnConflict td args forceOnConflictExpr upsert =
        .ok (cols, doUpdateSetExpr (insertColumnNames args) cols)) ∧
    (td.UniqueIndexLookup forceOnConflictExpr = none →
      ((insertConflictCandidates (td.OnConflict).2 args).contains forceOnConflictExpr = true →
        resolveOnConflict td args forceOnConflictExpr upsert =
          .ok ([forceOnConflictExpr],
            doUpdateSetExpr (insertColumnNames args) [forceOnConflictExpr])) ∧
      ((insertConflictCandidates (td.OnConflict).2 args).contains forceOnConflictExpr = false →
        insertConflictCandidates (td.OnConflict).2 args = [] →
        resolveOnConflict td args forceOnConflictExpr upsert =
          .error ("can" ++ sq ++ "t find unique index with name: " ++ forceOnConflictExpr)) ∧
      ((insertConflictCandidates (td.OnConflict).2 args).contains forceOnConflictExpr = false →
        insertConflictCandidates (td.OnConflict).2 args ≠ [] →
        resolveOnConflict td args forceOnConflictExpr upsert =
          .ok (insertConflictCandidates (td.OnConflict).2 args,
            doUpdateSetExpr (insertColumnNames args)
              (insertConflictCandidates (td.OnConflict).2 args)))) ∧
    (args ≠ [] → ∀ conflicts expr,
      resolveOnConflict td args forceOnConflictExpr upsert = .ok (conflicts, expr) →
      buildInsertQuery td args returningColumn forceOnConflictExpr upsert =
        .ok (insertQueryText td args conflicts expr returningColumn)) := by
  refine ⟨fun cols hcols => ⟨?_, ?_⟩, fun hnone => ⟨fun hmem => ?_, fun hmem hnil => ?_, fun hmem hnil => ?_⟩, fun hargs conflicts expr hres => ?_⟩
  · -- the looked-up group is the declared-order filter of the table's columns
    unfold Table.UniqueIndexLookup at hcols
    dsimp only at hcols
    split at hcols
    · exact absurd hcols (by simp)
    · cases hcols
      induction td.Columns with
      | nil => rfl
      | cons c rest ih =>
        by_cases h1 : c.UniqueIndex = ""
        · simp [h1, List.filterMap_cons, ih]
        · by_cases h2 : c.UniqueIndex = forceOnConflictExpr
          · simp [h1, h2, hforce, List.filterMap_cons, List.filter_cons, ih]
          · simp [h1, h2, hforce, List.filterMap_cons, List.filter_cons, ih]
  · unfold resolveOnConflict
    simp [hforce, hcols]
  · unfold resolveOnConflict
    have hmem' : forceOnConflictExpr ∈ insertConflictCandidates (td.OnConflict).2 args := by
      simpa using hmem
    simp [hforce, hnone, hmem']
  · unfold resolveOnConflict
    have hmem' : forceOnConflictExpr ∉ insertConflictCandidates (td.OnConflict).2 args := by
      simpa using hmem
    simp [hforce, hnone, hmem', hnil]
  · unfold resolveOnConflict
    have hmem' : forceOnConflictExpr ∉ insertConflictCandidates (td.OnConflict).2 args := by
      simpa using hmem
    simp [hforce, hnone, hmem', hnil]
  · unfold buildInsertQuery
    have : args.isEmpty = false := by
      cases args with
      | nil => exact absurd rfl hargs
      | cons a t => rfl
    rw [this]
    simp [hres]

/-- C6 witness: the amended theorem applied to the named unique-index group
`uq_ab` — ON CONFLICT is rewritten to exactly that group's columns in
declared order. -/
theorem C6_forced_conflict_resolution_witness :
    resolveOnConflict usersTable
        [{ Column := uniqueEmailColumn }, { Column := groupColumnA }, { Column := groupColumnB }]
        "uq_ab" false =
      .ok (["a", "b"], "DO UPDATE SET email = EXCLUDED.email") := by
  have h := ((C6_forced_conflict_resolution usersTable
    [{ Column := uniqueEmailColumn }, { Column := groupColumnA }, { Column := groupColumnB }]
    "id" "uq_ab" false (by decide)).1 ["a", "b"] (by decide)).2
  rw [h]
  decide

/-! ## C7 — when RETURNING is emitted by the INSERT/UPSERT builder -/

/-- C7: for a table with a primary key, the built INSERT ends with a
`RETURNING pk` clause exactly when a destination pointer was requested AND
(no ON CONFLICT clause was emitted OR the emitted conflict action contains
`DO UPDATE`); in particular an ON CONFLICT action without `DO UPDATE`
(such as `DO NOTHING`) is never combined with RETURNING. -/
theorem C7_insert_returning (td : Table) (args : List Argument) (hasIdPtr : Bool)
    (forceOnConflictExpr : String) (upsert : Bool) (pk : Column)
    (conflicts : List String) (expr : String)
    (hpk : td.PrimaryKeyCol = some pk)
    (hargs : args ≠ [])
    (hres : resolveOnConflict td args forceOnConflictExpr upsert = .ok (conflicts, expr)) :
    BuildInsertQuery td args hasIdPtr forceOnConflictExpr upsert =
      .ok (insertQueryText td args conflicts expr (if hasIdPtr then pk.Name else ""),
        argumentsValues args) ∧
    (insertReturningEmitted conflicts expr (if hasIdPtr then pk.Name else "") = true ↔
      (hasIdPtr = true ∧ pk.Name ≠ "" ∧
        (conflicts = [] ∨ goContains (goToUpper expr) "DO UPDATE" = true))) ∧
    (insertReturningEmitted conflicts expr (if hasIdPtr then pk.Name else "") = true →
      insertQueryText td args conflicts expr (if hasIdPtr then pk.Name else "") =
        insertQueryPrefix td args conflicts expr ++
          writeInsertReturning (if hasIdPtr then pk.Name else "") ++ ";") ∧
    (insertReturningEmitted conflicts expr (if hasIdPtr then pk.Name else "") = false →
      insertQueryText td args conflicts expr (if hasIdPtr then pk.Name else "") =
        insertQueryPrefix td args conflicts expr ++ ";") ∧
    (conflicts ≠ [] → goContains (goToUpper expr) "DO UPDATE" = false →
      insertReturningEmitted conflicts expr (if hasIdPtr then pk.Name else "") = false) := by
  have hempty : args.isEmpty = false := by
    cases args with
    | nil => exact absurd rfl hargs
    | cons a t => rfl
  refine ⟨?_, ?_, fun hemit => ?_, fun hemit => ?_, fun hconf hdo => ?_⟩
  · unfold BuildInsertQuery buildInsertQuery
    rw [hpk, hempty, hres]
    cases hasIdPtr <;> simp
  · unfold insertReturningEmitted
    cases hasIdPtr with
    | false => cases conflicts <;> simp
    | true =>
      cases conflicts with
      | nil => simp
      | cons c rest => simp [Bool.and_eq_true, and_assoc]
  · unfold insertQueryText
    rw [if_pos hemit]
  · unfold insertQueryText
    rw [if_neg (by simp [hemit]), strAppend_empty]
  · unfold insertReturningEmitted
    cases conflicts with
    | nil => exact absurd rfl hconf
    | cons c rest => simp [hdo]

/-- C7 witness: an upsert over a named unique-index group emits
`ON CONFLICT(a,b) DO UPDATE SET ...` followed by `RETURNING id`. -/
theorem C7_insert_returning_witness :
    BuildInsertQuery usersTable
        [{ Column := groupColumnA }, { Column := groupColumnB }] true "" true =
      .ok ("INSERT INTO \"public\".\"users\" (a,b) VALUES($1,$2) ON CONFLICT(a,b) DO UPDATE SET  RETURNING id;",
        [GoValue.vnull, GoValue.vnull]) := by
  have h := (C7_insert_returning usersTable
    [{ Column := groupColumnA }, { Column := groupColumnB }] true "" true
    usersIdColumn ["a", "b"] "DO UPDATE SET " rfl (by decide) (by decide)).1
  rw [h]
  decide

theorem goHasSuf_refl (b : String) : goHasSuf b b = true := by
  have h := goHasSuf_append "" b
  rwa [strEmpty_append] at h

theorem goHasSuf_append_right (x y s : String) (h : goHasSuf y s = true) :
    goHasSuf (x ++ y) s = true := by
  unfold goHasSuf at h ⊢
  rw [strToList_append, List.reverse_append]
  exact listStartsWith_extend _ _ _ h

theorem isEmpty_true_eq_nil {α : Type} {l : List α} (h : l.isEmpty = true) : l = [] := by
  cases l with
  | nil => rfl
  | cons a t => simp [List.isEmpty] at h

/-! ## C8 — UPDATE builder: zero-valued fields, allow-list, primary key -/

/-- Every `ok` result of `extractUpdateArguments` ends with the primary-key
argument (the list shape produced by `ShiftEnd`). -/
theorem extractUpdate_ok_shape (record : List Argument) (columnsToUpdate : List String)
    (pk : Column) (id : GoValue) (args : List Argument)
    (hok : extractUpdateArguments record columnsToUpdate pk id = .ok args) :
    ∃ args1, args = argumentsShiftEnd args1 { Column := pk, Value := id } := by
  unfold extractUpdateArguments at hok
  dsimp only at hok
  split at hok <;> split at hok
  · simp at hok
  · rw [Except.ok.injEq] at hok
    exact ⟨_, hok.symm⟩
  · simp at hok
  · rw [Except.ok.injEq] at hok
    exact ⟨_, hok.symm⟩

/-- C8: building a full UPDATE (empty allow-list) omits every non-primary-key
field holding its zero value from the extracted SET arguments, while an
"only columns" UPDATE naming that field includes it regardless of value; the
primary-key argument is appended last (so its value is the final query
argument) and the query's WHERE clause tests the primary-key column. -/
theorem C8_update_arguments (td : Table) (record : List Argument) (pk f : Column)
    (id v : GoValue)
    (hmem : ({ Column := f, Value := v } : Argument) ∈ record)
    (hzero : v.isZero = true)
    (hname : f.Name ≠ pk.Name)
    (hpres : f.Presenter = false)
    (hnodup : (record.map (fun a => a.Column.Name)).Nodup) :
    (∀ args, extractUpdateArguments record [] pk id = .ok args →
      f.Name ∉ args.map (fun a => a.Column.Name)) ∧
    (∀ columnsToUpdate, columnsToUpdate ≠ [] → f.Name ∈ columnsToUpdate →
      ∃ args, extractUpdateArguments record columnsToUpdate pk id = .ok args ∧
        ({ Column := f, Value := v } : Argument) ∈ args ∧
        args.getLast? = some { Column := pk, Value := id }) ∧
    (∀ columnsToUpdate args, extractUpdateArguments record columnsToUpdate pk id = .ok args →
      args.getLast? = some { Column := pk, Value := id } ∧
      (argumentsValues args).getLast? = some id) ∧
    (∀ columnsToUpdate q vals, BuildUpdateQuery td record columnsToUpdate pk id = .ok (q, vals) →
      (∃ n : Nat, goHasSuf q (" WHERE " ++ goQuote pk.Name ++ " = $" ++ toString n ++ ";") = true) ∧
      vals.getLast? = some id) := by
  have hlast : ∀ (args1 : List Argument),
      (argumentsShiftEnd args1 { Column := pk, Value := id }).getLast? =
        some { Column := pk, Value := id } := by
    intro args1
    unfold argumentsShiftEnd
    exact List.getLast?_concat _
  have hvalues : ∀ (args1 : List Argument),
      (argumentsValues (argumentsShiftEnd args1 { Column := pk, Value := id })).getLast? =
        some id := by
    intro args1
    unfold argumentsValues argumentsShiftEnd
    rw [List.map_append, List.map_cons, List.map_nil]
    exact List.getLast?_concat _
  refine ⟨fun args hok => ?_, ?_, fun columnsToUpdate args hok => ?_, fun columnsToUpdate q vals hok => ?_⟩
  · -- full update: the zero-valued field is filtered out
    unfold extractUpdateArguments at hok
    dsimp only at hok
    split at hok
    case isFalse h => simp at h
    split at hok
    · simp at hok
    · rw [Except.ok.injEq] at hok
      subst hok
      intro hcontra
      obtain ⟨a, ha, hna⟩ := List.mem_map.mp hcontra
      unfold argumentsShiftEnd at ha
      rcases List.mem_append.mp ha with ha | ha
      · have hmem_a := List.mem_filter.mp ha
        have hmem_a2 := hmem_a.1
        simp only [filterArgumentsForFullUpdate, extractArguments, List.isEmpty_nil,
          if_pos] at hmem_a2
        have hf1 := List.mem_filter.mp hmem_a2
        have hf2 := List.mem_filter.mp hf1.1
        have hf3 := List.mem_filter.mp hf2.1
        -- a is an element of the record with a non-zero value and f's column name
        have haf : a = { Column := f, Value := v } := by
          apply List.inj_on_of_nodup_map hnodup hf3.1 hmem
          simpa using hna
        rw [haf] at hf1
        simp [hzero] at hf1
      · have : a = { Column := pk, Value := id } := by simpa using ha
        rw [this] at hna
        exact hname (by simpa using hna.symm)
  · -- an allow-list naming f includes it regardless of value
    intro columnsToUpdate hne hfmem
    have hl : (fun fieldName =>
        if columnsToUpdate.isEmpty then true
        else columnsToUpdate.contains fieldName) =
        (fun fieldName => columnsToUpdate.contains fieldName) := by
      funext fieldName
      rw [if_neg (fun h => hne (isEmpty_true_eq_nil h))]
    have hcb : ({ Column := f, Value := v } : Argument) ∈
        extractArguments record (some (fun fieldName => columnsToUpdate.contains fieldName)) := by
      unfold extractArguments
      refine List.mem_filter.mpr ⟨List.mem_filter.mpr ⟨hmem, by simp [hpres]⟩, ?_⟩
      simpa using hfmem
    have hnot : extractArguments record
        (some (fun fieldName => columnsToUpdate.contains fieldName)) ≠ [] := by
      intro hempty
      rw [hempty] at hcb
      cases hcb
    have hkey : extractUpdateArguments record columnsToUpdate pk id =
        .ok (argumentsShiftEnd
          (extractArguments record (some (fun fieldName => columnsToUpdate.contains fieldName)))
          { Column := pk, Value := id }) := by
      unfold extractUpdateArguments
      dsimp only
      rw [hl, if_neg (fun h => hne (isEmpty_true_eq_nil h)),
        if_neg (fun h => hnot (isEmpty_true_eq_nil h))]
    refine ⟨_, hkey, ?_, hlast _⟩
    unfold argumentsShiftEnd
    apply List.mem_append.mpr
    left
    apply List.mem_filter.mpr
    exact ⟨hcb, by simpa using hname⟩
  · obtain ⟨args1, h1⟩ := extractUpdate_ok_shape record columnsToUpdate pk id args hok
    subst h1
    exact ⟨hlast _, hvalues _⟩
  · unfold BuildUpdateQuery at hok
    cases hex : extractUpdateArguments record columnsToUpdate pk id with
    | error e => rw [hex] at hok; simp at hok
    | ok args =>
      rw [hex] at hok
      dsimp only at hok
      split at hok
      · simp at hok
      · rw [Except.ok.injEq, Prod.mk.injEq] at hok
        obtain ⟨hq, hvals⟩ := hok
        constructor
        · refine ⟨if columnsToUpdate.contains pk.Name then
            (buildUpdateQueryLoop td pk.Name true args.enum 0).2
          else (buildUpdateQueryLoop td pk.Name false args.enum 0).2 + 1, ?_⟩
          rw [← hq]
          unfold buildUpdateQuery
          cases hc : columnsToUpdate.contains pk.Name with
          | true =>
            simp only [hc, if_pos, strAppend_assoc]
            apply goHasSuf_append_right
            apply goHasSuf_append_right
            apply goHasSuf_append_right
            apply goHasSuf_append_right
            exact goHasSuf_refl _
          | false =>
            simp only [hc, Bool.false_eq_true, if_false, strAppend_assoc]
            apply goHasSuf_append_right
            apply goHasSuf_append_right
            apply goHasSuf_append_right
            apply goHasSuf_append_right
            exact goHasSuf_refl _
        · obtain ⟨args1, h1⟩ := extractUpdate_ok_shape record columnsToUpdate pk id args hex
          rw [← hvals]
          subst h1
          exact hvalues _

/-- C8 witness: the theorem applied to a record holding a zero-valued
integer field `age` and a non-zero `name` — the full update's arguments
omit `age`. -/
theorem C8_update_arguments_witness :
    "age" ∉
      ([ { Column := { Name := "name", Typ := DataType.Text }, Value := GoValue.vstr "bob" },
        { Column := usersIdColumn, Value := GoValue.vstr "ID1" } ] : List Argument).map
        (fun a => a.Column.Name) := by
  have h := (C8_update_arguments { Name := "people" }
    [ { Column := { Name := "name", Typ := DataType.Text }, Value := .vstr "bob" },
      { Column := { Name := "age", Typ := DataType.Integer }, Value := .vint 0 } ]
    usersIdColumn { Name := "age", Typ := DataType.Integer } (.vstr "ID1") (.vint 0)
    (by decide) (by decide) (by decide) (by decide) (by decide)).1
  have h2 := h
    [ { Column := { Name := "name", Typ := DataType.Text }, Value := GoValue.vstr "bob" },
      { Column := usersIdColumn, Value := GoValue.vstr "ID1" } ] (by decide)
  simpa using h2

end PG
